import Mathlib

/-!
Verification of the krista-infinispan client library.

This file shallowly embeds the library's core in Lean 4:

* the value-encoding pipeline of `cache_operations.py`
  (`_encode_value` / `_decode_value` / `_serialize_value` / `_deserialize_value`),
  together with executable models of the Python standard-library functions it
  calls (`json.dumps` / `json.loads` on the integer-numbered, ASCII fragment of
  JSON, and `base64.b64encode` / `base64.b64decode`);
* the shared retry/backoff loop that appears verbatim in
  `_put_with_retry`, `_get_with_retry`, `_delete_with_retry`,
  `_cache_exists_with_retry`, `_create_cache_with_retry`,
  `_register_schema_with_retry` and `_get_schema_with_retry`
  (delays are modelled as exact rationals);
* `cache_creator.py` (`cache_exists`, `create_cache`, `_build_cache_config`,
  `_build_persistence_config`, `_get_l1_expiration_ms`);
* `schema_manager.py` (`register_schema`, `get_schema`, `schema_exists`,
  `register_cache_entry_schema`);
* the `put` / `_ensure_cache_exists` path of `cache_operations.py`.

The HTTP transport (`requests`) is modelled as an oracle mapping each attempt
number and request to either a response or a transport-level exception, and
every modelled method additionally returns the list of network requests it
issued, so that "no request was sent" claims are statements about that list.
-/

/-! ## Python JSON values

`JVal` models the JSON-representable Python values handled by the library:
`None`, booleans, integers, strings, lists and dicts (a dict is modelled as its
insertion-ordered key/value list).  Floats are outside the model; strings are
handled exactly on the printable-ASCII fragment (see `asciiVal`). -/

inductive JVal where
  | null
  | boolean (b : Bool)
  | num (n : Int)
  | str (s : String)
  | arr (xs : List JVal)
  | obj (fs : List (String × JVal))

/-- Whitespace characters accepted by Python's JSON parser. -/
def isWsChar (c : Char) : Bool :=
  decide (c = ' ' ∨ c = '\t' ∨ c = '\n' ∨ c = '\r')

/-- Drop leading JSON whitespace. -/
def skipSpace (cs : List Char) : List Char :=
  cs.dropWhile isWsChar

/-- Printable-ASCII test: the fragment on which the string model is exact
(U+0020 to U+007E; Python's `json.dumps` escapes nothing in this range except
the quote and the backslash, which `escChar` below handles). -/
def printableChar (c : Char) : Bool :=
  32 ≤ c.toNat && c.toNat ≤ 126

/-- The decimal digit character for `d` (`d < 10`). -/
def digitChr (d : Nat) : Char :=
  Char.ofNat (48 + d)

/-- Fuel-driven digit emitter: decimal digits of `n`, most significant first,
prepended to `acc`.  `natToChars` supplies enough fuel. -/
def natChars : Nat → Nat → List Char → List Char
  | 0, _, acc => acc
  | fuel + 1, n, acc =>
    if n < 10 then digitChr (n % 10) :: acc
    else natChars fuel (n / 10) (digitChr (n % 10) :: acc)

/-- Decimal digit characters of a natural number, as `str(n)` would print. -/
def natToChars (n : Nat) : List Char :=
  natChars (n + 1) n []

/-- Decimal characters of an integer, as Python's `json.dumps(i)` prints it. -/
def intToChars (i : Int) : List Char :=
  (if i < 0 then ['-'] else []) ++ natToChars i.natAbs

/-- JSON string escaping on the modelled fragment: quote and backslash get a
backslash escape, every other (printable-ASCII) character is emitted as-is. -/
def escChar (c : Char) : List Char :=
  if c = '"' || c = '\\' then ['\\', c] else [c]

/-- A JSON string literal: quoted, characters escaped. -/
def emitStr (s : String) : List Char :=
  '"' :: (s.data.flatMap escChar ++ ['"'])

mutual
/-- Model of Python's `json.dumps` (default separators `", "` and `": "`),
producing a character list. -/
def emitVal : JVal → List Char
  | .null => ['n', 'u', 'l', 'l']
  | .boolean true => ['t', 'r', 'u', 'e']
  | .boolean false => ['f', 'a', 'l', 's', 'e']
  | .num i => intToChars i
  | .str s => emitStr s
  | .arr xs => '[' :: (emitItems xs ++ [']'])
  | .obj fs => '{' :: (emitFields fs ++ ['}'])
/-- Array elements joined by `", "`. -/
def emitItems : List JVal → List Char
  | [] => []
  | x :: xs => emitVal x ++ emitSep xs
/-- Continuation of `emitItems`: each further element is preceded by `", "`. -/
def emitSep : List JVal → List Char
  | [] => []
  | x :: xs => ',' :: ' ' :: (emitVal x ++ emitSep xs)
/-- Object members `"key": value` joined by `", "`. -/
def emitFields : List (String × JVal) → List Char
  | [] => []
  | (k, v) :: fs => emitStr k ++ ':' :: ' ' :: (emitVal v ++ emitFieldSep fs)
/-- Continuation of `emitFields`: each further member is preceded by `", "`. -/
def emitFieldSep : List (String × JVal) → List Char
  | [] => []
  | (k, v) :: fs => ',' :: ' ' :: (emitStr k ++ ':' :: ' ' :: (emitVal v ++ emitFieldSep fs))
end

/-- Model of Python's `json.dumps`. -/
def dumps (v : JVal) : String :=
  String.mk (emitVal v)

mutual
/-- All string literals (values and object keys) inside `v` are printable
ASCII: the fragment on which the codec model is exact. -/
def asciiVal : JVal → Bool
  | .null => true
  | .boolean _ => true
  | .num _ => true
  | .str s => s.data.all printableChar
  | .arr xs => asciiItems xs
  | .obj fs => asciiFields fs
/-- `asciiVal` over a list of array elements. -/
def asciiItems : List JVal → Bool
  | [] => true
  | x :: xs => asciiVal x && asciiItems xs
/-- `asciiVal` over object members (keys included). -/
def asciiFields : List (String × JVal) → Bool
  | [] => true
  | (k, v) :: fs => k.data.all printableChar && asciiVal v && asciiFields fs
end

mutual
/-- Body of a JSON string literal, after the opening quote: plain characters up
to the closing quote, with `\"` and `\\` escapes (the modelled fragment). -/
def parseStrBody : List Char → Option (String × List Char)
  | [] => none
  | c :: rest =>
    if c = '"' then some ("", rest)
    else if c = '\\' then parseStrEscaped rest
    else (parseStrBody rest).map (fun p => (String.mk (c :: p.1.data), p.2))
/-- The character after a backslash: only an escaped quote or backslash is
accepted here. -/
def parseStrEscaped : List Char → Option (String × List Char)
  | [] => none
  | e :: rest2 =>
    if e = '"' || e = '\\' then
      (parseStrBody rest2).map (fun p => (String.mk (e :: p.1.data), p.2))
    else none
end

/-- Numeric value of a digit-character run. -/
def digitsVal (ds : List Char) : Nat :=
  ds.foldl (fun a c => a * 10 + (c.toNat - 48)) 0

/-- Longest leading digit run, as a number; fails on an empty run. -/
def parseNatTok (cs : List Char) : Option (Nat × List Char) :=
  if cs.takeWhile Char.isDigit = [] then none
  else some (digitsVal (cs.takeWhile Char.isDigit), cs.dropWhile Char.isDigit)

/-- The remainder after a number token must not begin with a digit (every JSON
delimiter, whitespace, and the end of input qualify). -/
def numStop (cs : List Char) : Bool :=
  match cs with
  | [] => true
  | c :: _ => !c.isDigit

/-- An optionally-signed decimal integer token. -/
def parseNumTok (cs : List Char) : Option (Int × List Char) :=
  if cs.head? = some '-' then
    (parseNatTok cs.tail).map (fun p => (-(p.1 : Int), p.2))
  else
    (parseNatTok cs).map (fun p => ((p.1 : Int), p.2))

mutual
/-- Model of Python's `json.loads`, one value as a prefix: recursive descent,
structural on a fuel counter (`loads` supplies `length + 1`, always enough). -/
def parseVal : Nat → List Char → Option (JVal × List Char)
  | 0, _ => none
  | fuel + 1, cs =>
    match skipSpace cs with
    | 'n' :: 'u' :: 'l' :: 'l' :: r => some (.null, r)
    | 't' :: 'r' :: 'u' :: 'e' :: r => some (.boolean true, r)
    | 'f' :: 'a' :: 'l' :: 's' :: 'e' :: r => some (.boolean false, r)
    | '"' :: r => (parseStrBody r).map (fun p => (.str p.1, p.2))
    | '[' :: r =>
      (match skipSpace r with
       | ']' :: r2 => some (.arr [], r2)
       | r2 => (parseItems fuel r2).map (fun p => (.arr p.1, p.2)))
    | '{' :: r =>
      (match skipSpace r with
       | '}' :: r2 => some (.obj [], r2)
       | r2 => (parseFields fuel r2).map (fun p => (.obj p.1, p.2)))
    | c :: r =>
      if c = '-' || c.isDigit then (parseNumTok (c :: r)).map (fun p => (.num p.1, p.2))
      else none
    | [] => none
/-- One or more comma-separated array elements, closed by `]` (the empty array
is handled in `parseVal`). -/
def parseItems : Nat → List Char → Option (List JVal × List Char)
  | 0, _ => none
  | fuel + 1, cs =>
    match parseVal fuel cs with
    | none => none
    | some (v, r) =>
      match skipSpace r with
      | ',' :: r2 => (parseItems fuel r2).map (fun p => (v :: p.1, p.2))
      | ']' :: r2 => some ([v], r2)
      | _ => none
/-- One or more comma-separated `"key": value` members, closed by `}` (the
empty object is handled in `parseVal`). -/
def parseFields : Nat → List Char → Option (List (String × JVal) × List Char)
  | 0, _ => none
  | fuel + 1, cs =>
    match skipSpace cs with
    | '"' :: r =>
      (match parseStrBody r with
       | none => none
       | some (k, r1) =>
         match skipSpace r1 with
         | ':' :: r2 =>
           (match parseVal fuel r2 with
            | none => none
            | some (v, r3) =>
              match skipSpace r3 with
              | ',' :: r4 => (parseFields fuel r4).map (fun p => ((k, v) :: p.1, p.2))
              | '}' :: r4 => some ([(k, v)], r4)
              | _ => none)
         | _ => none)
    | _ => none
end

/-- Model of Python's `json.loads`: a complete document, trailing whitespace
only (anything else raises `JSONDecodeError`, modelled as `none`). -/
def loads (s : String) : Option JVal :=
  match parseVal (s.data.length + 1) s.data with
  | some (v, r) => if skipSpace r = [] then some v else none
  | none => none

/-! ## Base64 and byte strings

Models of `base64.b64encode` / `base64.b64decode` over byte lists, and of
UTF-8 encoding/decoding on the ASCII fragment. -/

/-- The standard base64 alphabet character for a sextet `k < 64`. -/
def b64chr (k : Nat) : Char :=
  if k < 26 then Char.ofNat (65 + k)
  else if k < 52 then Char.ofNat (71 + k)
  else if k < 62 then Char.ofNat (k - 4)
  else if k = 62 then '+' else '/'

/-- Membership in the standard base64 alphabet. -/
def isB64Char (c : Char) : Bool :=
  ('A' ≤ c && c ≤ 'Z') || ('a' ≤ c && c ≤ 'z') || ('0' ≤ c && c ≤ '9') || c == '+' || c == '/'

/-- Sextet value of an alphabet character (garbage on non-alphabet input, which
callers filter out first). -/
def b64val (c : Char) : Nat :=
  if 'A' ≤ c && c ≤ 'Z' then c.toNat - 65
  else if 'a' ≤ c && c ≤ 'z' then c.toNat - 71
  else if '0' ≤ c && c ≤ '9' then c.toNat + 4
  else if c = '+' then 62
  else 63

/-- Model of `base64.b64encode` on a byte list: three bytes to four alphabet
characters, with `=` padding on a short final group. -/
def b64encodeBytes : List Nat → List Char
  | [] => []
  | [a] => [b64chr (a / 4), b64chr (a % 4 * 16), '=', '=']
  | [a, b] => [b64chr (a / 4), b64chr (a % 4 * 16 + b / 16), b64chr (b % 16 * 4), '=']
  | a :: b :: c :: rest =>
    b64chr (a / 4) :: b64chr (a % 4 * 16 + b / 16) :: b64chr (b % 16 * 4 + c / 64) ::
      b64chr (c % 64) :: b64encodeBytes rest

/-- Decode a run of alphabet characters (padding already stripped): full groups
of four, a final group of two or three, and failure on a final group of one. -/
def b64quads : List Char → Option (List Nat)
  | [] => some []
  | [c1, c2] => some [b64val c1 * 4 + b64val c2 / 16]
  | [c1, c2, c3] =>
    some [b64val c1 * 4 + b64val c2 / 16, b64val c2 % 16 * 16 + b64val c3 / 4]
  | c1 :: c2 :: c3 :: c4 :: rest =>
    (b64quads rest).map (fun bs =>
      (b64val c1 * 4 + b64val c2 / 16) :: (b64val c2 % 16 * 16 + b64val c3 / 4) ::
        (b64val c3 % 4 * 64 + b64val c4) :: bs)
  | [_] => none

/-- Model of `base64.b64decode` with the default `validate=False`: characters
outside the alphabet are discarded, data ends at the first `=`; it raises
`binascii.Error` ("invalid padding", modelled as `none`) when the data length
is 1 mod 4, or is 2 or 3 mod 4 with no padding character present. -/
def b64decodeChars (cs : List Char) : Option (List Nat) :=
  let kept := cs.filter (fun c => isB64Char c || c == '=')
  let data := kept.takeWhile (fun c => c != '=')
  if data.length % 4 = 1 then none
  else if data.length % 4 ≠ 0 && kept.length = data.length then none
  else b64quads data

/-- Specification helper: the data characters of `b64encodeBytes bs` — the
encoding with its `=` padding stripped. -/
def b64dataChars : List Nat → List Char
  | [] => []
  | [a] => [b64chr (a / 4), b64chr (a % 4 * 16)]
  | [a, b] => [b64chr (a / 4), b64chr (a % 4 * 16 + b / 16), b64chr (b % 16 * 4)]
  | a :: b :: c :: rest =>
    b64chr (a / 4) :: b64chr (a % 4 * 16 + b / 16) :: b64chr (b % 16 * 4 + c / 64) ::
      b64chr (c % 64) :: b64dataChars rest

/-- Model of `str.encode("utf-8")`, exact on the ASCII fragment. -/
def strBytes (s : String) : List Nat :=
  s.data.map Char.toNat

/-- Model of `bytes.decode("utf-8")` on the ASCII fragment: bytes of 128 and
above (multi-byte or invalid UTF-8) are outside the model and fail. -/
def bytesStr (bs : List Nat) : Option String :=
  if bs.all (· < 128) then some (String.mk (bs.map Char.ofNat)) else none

/-! ## The value codec of `cache_operations.py` -/

/-- Python exceptions that the encoding pipeline can raise. -/
inductive PyErr where
  | typeErr
  | b64Err
  | unicodeErr
  | attrErr
  deriving DecidableEq

/-- A Python value handed to `put`: either JSON-serializable or any other
object, on which `json.dumps` raises `TypeError`. -/
inductive PyVal where
  | json (v : JVal)
  | nonJson (tag : String)

/-- The serializable branch of `_encode_value`: the value itself if it is a
string, else its `json.dumps`; UTF-8 encoded, then base64 encoded. -/
def encode_json (j : JVal) : String :=
  let json_str := match j with | .str s => s | _ => dumps j
  String.mk (b64encodeBytes (strBytes json_str))

/-- `_encode_value` of `cache_operations.py`: base64-encoded JSON text, raising
(`TypeError`, re-raised by the method's `except`) on non-serializable values. -/
def encode_value : PyVal → Except PyErr String
  | .json j => .ok (encode_json j)
  | .nonJson _ => .error .typeErr

/-- The ProtoStream envelope around an encoded payload, as `_serialize_value`
builds it. -/
def protostream_wrap (encoded_value : String) : String :=
  dumps (.obj [("_type", .str "cache.CacheEntry"), ("value", .str encoded_value)])

/-- `_serialize_value` on a serializable value (total on `JVal`). -/
def serialize_json (j : JVal) : String :=
  protostream_wrap (encode_json j)

/-- `_serialize_value` of `cache_operations.py`: encode, then wrap in the
ProtoStream envelope. -/
def serialize_value (value : PyVal) : Except PyErr String :=
  (encode_value value).map protostream_wrap

/-- `_decode_value` of `cache_operations.py`: base64 decode (errors re-raised),
UTF-8 decode (errors re-raised), then `json.loads` with the plain-string
fallback when the inner text is not valid JSON. -/
def decode_value (encoded_str : String) : Except PyErr JVal :=
  match b64decodeChars encoded_str.data with
  | none => .error .b64Err
  | some decoded_bytes =>
    match bytesStr decoded_bytes with
    | none => .error .unicodeErr
    | some json_str =>
      match loads json_str with
      | some v => .ok v
      | none => .ok (.str json_str)

/-- Python dict lookup on the parsed member list (later duplicate keys win, as
in a dict built by successive assignment). -/
def dict_get (fs : List (String × JVal)) (key : String) : Option JVal :=
  fs.foldl (fun acc p => if p.1 = key then some p.2 else acc) none

/-- `_deserialize_value` of `cache_operations.py`: parse the outer envelope
(`JSONDecodeError` is caught and the raw wire string returned); a dict with a
`"value"` field has that field base64-decoded (`AttributeError` on a non-string
field, since `.encode` is called on it); anything else is returned as-is. -/
def deserialize_value (protostream_json : String) : Except PyErr JVal :=
  match loads protostream_json with
  | none => .ok (.str protostream_json)
  | some j =>
    match j with
    | .obj fs =>
      (match dict_get fs "value" with
       | some (.str encoded_value) => decode_value encoded_value
       | some _ => .error .attrErr
       | none => .ok j)
    | _ => .ok j

/-! ## The retry loop

The seven `*_with_retry` helpers in the sources are textually identical up to
the wrapped request: `retry_loop` is that shared body.  `op attempt` is the
outcome of invocation number `attempt` (0-based); delays are exact rationals
standing for the Python floats; `sleeps` records each `time.sleep` argument. -/

/-- Transport-level failures: the `requests` exception classes caught by every
retry helper. -/
inductive TransportErr where
  | connectionError
  | timeoutError
  | requestError
  deriving DecidableEq

/-- An HTTP response: status code and body text. -/
structure HttpResponse where
  status : Nat
  text : String
  deriving DecidableEq

/-- The four retry settings stored on each class instance. -/
structure RetryPolicy where
  max_retries : Nat
  initial_retry_delay : ℚ
  retry_backoff_multiplier : ℚ
  max_retry_delay : ℚ

/-- What a retry helper did: its outcome, how many times it invoked the
operation, and the argument of each `time.sleep` call in order. -/
structure RetryTrace where
  result : Except TransportErr HttpResponse
  calls : Nat
  sleeps : List ℚ

/-- The common retry loop: `attempt` is the current attempt number, `rem` the
number of attempts still allowed (the loop is entered with `max_retries + 1`,
so the `rem = 0` base case is unreachable), `delay` the current backoff delay.
On failure with attempts left it sleeps `delay` and continues with
`min (delay * mult) maxd`; on failure at the final attempt it re-raises. -/
def retry_loop (op : Nat → Except TransportErr HttpResponse) (mult maxd : ℚ) :
    Nat → Nat → ℚ → RetryTrace
  | _, 0, _ => ⟨.error .connectionError, 0, []⟩
  | attempt, rem + 1, delay =>
    match op attempt with
    | .ok response => ⟨.ok response, 1, []⟩
    | .error e =>
      if rem = 0 then ⟨.error e, 1, []⟩
      else
        let t := retry_loop op mult maxd (attempt + 1) rem (min (delay * mult) maxd)
        ⟨t.result, t.calls + 1, delay :: t.sleeps⟩

/-- A full run of the shared retry body under policy `p`. -/
def run_with_retry (p : RetryPolicy) (op : Nat → Except TransportErr HttpResponse) : RetryTrace :=
  retry_loop op p.retry_backoff_multiplier p.max_retry_delay 0 (p.max_retries + 1)
    p.initial_retry_delay

/-- The sequence of `k` successive backoff delays starting from `d`: each next
delay is `min (previous * mult) maxd`, exactly as the loop updates it. -/
def delay_seq (mult maxd : ℚ) : ℚ → Nat → List ℚ
  | _, 0 => []
  | d, k + 1 => d :: delay_seq mult maxd (min (d * mult) maxd) k

/-! ## Configuration: `cache_config.json` cache settings

Each optional field models a key that may be absent from the per-cache JSON
dict; `Option.getD` models Python's `dict.get(key, default)`. -/

/-- The `write_behind` sub-dict of a cache's persistence settings. -/
structure WriteBehindSettings where
  enabled : Option Bool
  modification_queue_size : Option Int
  fail_silently : Option Bool
  deriving DecidableEq

/-- The `persistence` sub-dict of a cache's settings (`store_type` models the
JSON key `type`). -/
structure PersistenceSettings where
  enabled : Option Bool
  store_type : Option String
  path : Option String
  shared : Option Bool
  passivation : Option Bool
  write_behind : Option WriteBehindSettings
  deriving DecidableEq

/-- One cache's settings dict from `cache_config.json`. -/
structure CacheSettings where
  enabled : Option Bool
  memory_size : Option String
  ttl_hours : Option Int
  l1_expiration_minutes : Option Int
  l1_expiration_hours : Option Int
  persistence : Option PersistenceSettings
  deriving DecidableEq

/-- An empty persistence dict, the default of `config.get('persistence', {})`. -/
def emptyPersistenceSettings : PersistenceSettings :=
  ⟨none, none, none, none, none, none⟩

/-- An empty write-behind dict, the default of `.get('write_behind', {})`. -/
def emptyWriteBehindSettings : WriteBehindSettings :=
  ⟨none, none, none⟩

/-- `CacheConfig.get_cache_config`: look the cache name up in the `caches`
mapping (`None` when absent; Python's falsy test in `create_cache` also fires
on an explicitly empty dict, which this model does not distinguish from a
configured cache, so only absence is modelled). -/
def get_cache_config (caches : List (String × CacheSettings)) (cache_name : String) :
    Option CacheSettings :=
  (caches.find? (fun c => c.1 == cache_name)).map (·.2)

/-! ## The server-side cache definition built by `_build_cache_config`

Hyphenated JSON keys (`l1-lifespan`, `max-size`, ...) become underscored
fields. -/

/-- The `write-behind` block inside `file-store`. -/
structure WriteBehindConfig where
  modification_queue_size : Int
  fail_silently : Bool
  deriving DecidableEq

/-- The `file-store` block (`data_path`/`index_path` model the nested
`data.path` and `index.path` keys). -/
structure FileStoreConfig where
  shared : Bool
  data_path : String
  index_path : String
  write_behind : Option WriteBehindConfig
  deriving DecidableEq

/-- The `persistence` block of the cache definition. -/
structure PersistenceConfig where
  passivation : Bool
  file_store : FileStoreConfig
  deriving DecidableEq

/-- The `locking` block. -/
structure LockingConfig where
  isolation : String
  acquire_timeout : Int
  deriving DecidableEq

/-- The `transaction` block. -/
structure TransactionConfig where
  mode : String
  auto_commit : Bool
  locking : String
  deriving DecidableEq

/-- The `memory` block. -/
structure MemoryConfig where
  max_size : String
  when_full : String
  storage : String
  deriving DecidableEq

/-- The `expiration` block. -/
structure ExpirationConfig where
  lifespan : Int
  deriving DecidableEq

/-- The `encoding` block (key and value media types). -/
structure EncodingConfig where
  key_media_type : String
  value_media_type : String
  deriving DecidableEq

/-- The `distributed-cache` JSON document POSTed to create a cache. -/
structure DistributedCacheConfig where
  mode : String
  owners : Int
  statistics : Bool
  l1_lifespan : Int
  l1_cleanup_interval : Int
  locking : LockingConfig
  transaction : TransactionConfig
  memory : MemoryConfig
  expiration : ExpirationConfig
  encoding : EncodingConfig
  persistence : Option PersistenceConfig
  deriving DecidableEq

/-- `CacheCreator._get_l1_expiration_ms`: minutes take priority, then hours,
then the fixed 30-minute default. -/
def get_l1_expiration_ms (config : CacheSettings) : Int :=
  match config.l1_expiration_minutes with
  | some minutes => minutes * 60 * 1000
  | none =>
    match config.l1_expiration_hours with
    | some hours => hours * 60 * 60 * 1000
    | none => 30 * 60 * 1000

/-- `CacheCreator._build_persistence_config`: `None` unless persistence is
enabled with a (default) `file-store` type; an unsupported type is a logged
warning and `None`, not an error. -/
def build_persistence_config (config : CacheSettings) : Option PersistenceConfig :=
  let ps := config.persistence.getD emptyPersistenceSettings
  if ps.enabled.getD false = false then none
  else if ps.store_type.getD "file-store" ≠ "file-store" then none
  else
    let base_path := ps.path.getD "caches"
    let wb := ps.write_behind.getD emptyWriteBehindSettings
    some
      { passivation := ps.passivation.getD false
        file_store :=
          { shared := ps.shared.getD false
            data_path := base_path ++ "/data"
            index_path := base_path ++ "/index"
            write_behind :=
              if wb.enabled.getD false then
                some { modification_queue_size := wb.modification_queue_size.getD 2048
                       fail_silently := wb.fail_silently.getD false }
              else none } }

/-- `CacheCreator._build_cache_config`: the deterministic cache definition
derived from one cache's settings. -/
def build_cache_config (config : CacheSettings) : DistributedCacheConfig :=
  let memory_size := config.memory_size.getD "50MB"
  let ttl_hours := config.ttl_hours.getD 2
  let ttl_ms := ttl_hours * 60 * 60 * 1000
  let l1_expiration_ms := get_l1_expiration_ms config
  { mode := "SYNC"
    owners := 1
    statistics := true
    l1_lifespan := l1_expiration_ms
    l1_cleanup_interval := l1_expiration_ms
    locking := { isolation := "READ_COMMITTED", acquire_timeout := 30000 }
    transaction := { mode := "NONE", auto_commit := true, locking := "OPTIMISTIC" }
    memory := { max_size := memory_size, when_full := "REMOVE", storage := "HEAP" }
    expiration := { lifespan := ttl_ms }
    encoding := { key_media_type := "application/x-protostream"
                  value_media_type := "application/x-protostream" }
    persistence := build_persistence_config config }

/-! ## The network layer

A request is what one `requests.<method>` call sends; a `NetOracle` says, for
each attempt number and request, whether that attempt returns a response or
raises a transport exception.  Modelled methods return the list of requests
they issued alongside their result. -/

/-- One HTTP request as issued by the sources. -/
inductive Req where
  | get (url : String)
  | put (url : String) (data : String)
  | delete (url : String)
  | post_data (url : String) (data : String)
  | post_json (url : String) (json : DistributedCacheConfig)
  deriving DecidableEq

/-- The transport oracle: outcome of attempt number `attempt` of a request. -/
abbrev NetOracle := Nat → Req → Except TransportErr HttpResponse

/-- URL of a cache, `f"{base_url}/caches/{cache_name}"`. -/
def rest_caches_url (base_url cache_name : String) : String :=
  base_url ++ "/caches/" ++ cache_name

/-- URL of a cache entry, `f"{base_url}/caches/{cache_name}/{key}"`. -/
def rest_entry_url (base_url cache_name key : String) : String :=
  base_url ++ "/caches/" ++ cache_name ++ "/" ++ key

/-- URL of a schema, `f"{base_url}/schemas/{schema_name}"`. -/
def rest_schema_url (base_url schema_name : String) : String :=
  base_url ++ "/schemas/" ++ schema_name

/-- `CacheCreator._cache_exists_with_retry`: the shared loop around a GET. -/
def cache_exists_with_retry (p : RetryPolicy) (net : NetOracle) (url : String) : RetryTrace :=
  run_with_retry p (fun attempt => net attempt (.get url))

/-- `CacheCreator._create_cache_with_retry`: the shared loop around a POST of
the cache definition. -/
def create_cache_with_retry (p : RetryPolicy) (net : NetOracle) (url : String)
    (infinispan_config : DistributedCacheConfig) : RetryTrace :=
  run_with_retry p (fun attempt => net attempt (.post_json url infinispan_config))

/-- `CacheOperations._put_with_retry`: the shared loop around a PUT. -/
def put_with_retry (p : RetryPolicy) (net : NetOracle) (url json_value : String) : RetryTrace :=
  run_with_retry p (fun attempt => net attempt (.put url json_value))

/-- `CacheOperations._get_with_retry`: the shared loop around a GET. -/
def get_with_retry (p : RetryPolicy) (net : NetOracle) (url : String) : RetryTrace :=
  run_with_retry p (fun attempt => net attempt (.get url))

/-- `SchemaManager._register_schema_with_retry`: the shared loop around a POST
of the schema text. -/
def register_schema_with_retry (p : RetryPolicy) (net : NetOracle)
    (url schema_content : String) : RetryTrace :=
  run_with_retry p (fun attempt => net attempt (.post_data url schema_content))

/-- `SchemaManager._get_schema_with_retry`: the shared loop around a GET. -/
def get_schema_with_retry (p : RetryPolicy) (net : NetOracle) (url : String) : RetryTrace :=
  run_with_retry p (fun attempt => net attempt (.get url))

/-! ## `cache_creator.py` -/

/-- `CacheCreator.cache_exists`: true exactly on HTTP 200; any exception that
survives the retries (and anything else the `except Exception` catches) yields
`False`. -/
def cache_exists (p : RetryPolicy) (net : NetOracle) (base_url cache_name : String) :
    Bool × List Req :=
  let url := rest_caches_url base_url cache_name
  let t := cache_exists_with_retry p net url
  match t.result with
  | .ok response => (response.status == 200, List.replicate t.calls (.get url))
  | .error _ => (false, List.replicate t.calls (.get url))

/-- The exceptions `CacheCreator.create_cache` can raise: `ValueError` for an
unconfigured cache, `ConnectionError` for connection failures and timeouts, a
generic `Exception` for other request errors, and an `Exception` carrying the
status and body for a non-200/201 response. -/
inductive CreateErr where
  | valueError
  | connectionError
  | requestError
  | httpError (status : Nat) (text : String)
  deriving DecidableEq

/-- `CacheCreator.create_cache`: configuration lookup first (raising
`ValueError` before any network call), then the idempotent existence check,
then the POST with its exception mapping. -/
def create_cache (p : RetryPolicy) (net : NetOracle) (caches : List (String × CacheSettings))
    (base_url cache_name : String) : Except CreateErr Bool × List Req :=
  match get_cache_config caches cache_name with
  | none => (.error .valueError, [])
  | some cache_config =>
    let ex := cache_exists p net base_url cache_name
    if ex.1 then (.ok true, ex.2)
    else
      let infinispan_config := build_cache_config cache_config
      let url := rest_caches_url base_url cache_name
      let t := create_cache_with_retry p net url infinispan_config
      let reqs := ex.2 ++ List.replicate t.calls (.post_json url infinispan_config)
      match t.result with
      | .error .connectionError => (.error .connectionError, reqs)
      | .error .timeoutError => (.error .connectionError, reqs)
      | .error .requestError => (.error .requestError, reqs)
      | .ok response =>
        if response.status == 200 || response.status == 201 then (.ok true, reqs)
        else (.error (.httpError response.status response.text), reqs)

/-! ## `schema_manager.py` -/

/-- `SchemaManager.register_schema`: POST the schema text unconditionally;
200/201/204 is success, anything else (exceptions included) is `False`. -/
def register_schema (p : RetryPolicy) (net : NetOracle)
    (base_url schema_name schema_content : String) : Bool × List Req :=
  let url := rest_schema_url base_url schema_name
  let t := register_schema_with_retry p net url schema_content
  let reqs := List.replicate t.calls (.post_data url schema_content)
  match t.result with
  | .ok response =>
    (response.status == 200 || response.status == 201 || response.status == 204, reqs)
  | .error _ => (false, reqs)

/-- `SchemaManager.get_schema`: the schema text on 200, `None` on 404, any
other status, or an exception. -/
def get_schema (p : RetryPolicy) (net : NetOracle) (base_url schema_name : String) :
    Option String × List Req :=
  let url := rest_schema_url base_url schema_name
  let t := get_schema_with_retry p net url
  let reqs := List.replicate t.calls (.get url)
  match t.result with
  | .ok response => (if response.status == 200 then some response.text else none, reqs)
  | .error _ => (none, reqs)

/-- `SchemaManager.schema_exists`: `get_schema(...) is not None`. -/
def schema_exists (p : RetryPolicy) (net : NetOracle) (base_url schema_name : String) :
    Bool × List Req :=
  let g := get_schema p net base_url schema_name
  (g.1.isSome, g.2)

/-- The fixed proto3 schema document of `register_cache_entry_schema`. -/
def cache_entry_schema_content : String :=
  "syntax = \"proto3\";\n\npackage cache;\n\n/**\n * Generic cache entry that stores " ++
  "base64-encoded JSON data\n */\nmessage CacheEntry \x7b\n    // The actual value stored " ++
  "as a base64-encoded JSON string\n    string value = 1;\n\n    // Optional metadata\n" ++
  "    int64 created_at = 2;\n    int64 updated_at = 3;\n\x7d\n"

/-- `SchemaManager.register_cache_entry_schema`: skip registration when the
fixed schema already exists, else register it. -/
def register_cache_entry_schema (p : RetryPolicy) (net : NetOracle) (base_url : String) :
    Bool × List Req :=
  let schema_name := "cache_entry.proto"
  let ex := schema_exists p net base_url schema_name
  if ex.1 then (true, ex.2)
  else
    let r := register_schema p net base_url schema_name cache_entry_schema_content
    (r.1, ex.2 ++ r.2)

/-! ## The `put` path of `cache_operations.py` -/

namespace CacheOperations

/-- `CacheOperations._ensure_cache_exists`: existence check, then creation; any
exception `create_cache` raises is caught and reported as `False`. -/
def ensure_cache_exists (p : RetryPolicy) (net : NetOracle)
    (caches : List (String × CacheSettings)) (base_url cache_name : String) :
    Bool × List Req :=
  let ex := cache_exists p net base_url cache_name
  if ex.1 then (true, ex.2)
  else
    match create_cache p net caches base_url cache_name with
    | (.ok success, reqs2) => (success, ex.2 ++ reqs2)
    | (.error _, reqs2) => (false, ex.2 ++ reqs2)

/-- `CacheOperations.put`: ensure the cache exists, serialize, PUT; every
failure (provisioning, serialization exceptions caught by the outer `except`,
bad status, exhausted retries) is reported as `False`, never raised. -/
def put (p : RetryPolicy) (net : NetOracle) (caches : List (String × CacheSettings))
    (base_url cache_name key : String) (value : PyVal) : Bool × List Req :=
  let ensured := ensure_cache_exists p net caches base_url cache_name
  if !ensured.1 then (false, ensured.2)
  else
    match serialize_value value with
    | .error _ => (false, ensured.2)
    | .ok json_value =>
      let url := rest_entry_url base_url cache_name key
      let t := put_with_retry p net url json_value
      let reqs := ensured.2 ++ List.replicate t.calls (.put url json_value)
      match t.result with
      | .ok response =>
        (response.status == 200 || response.status == 201 || response.status == 204, reqs)
      | .error _ => (false, reqs)

end CacheOperations

/-! ## Concrete fixtures used by witnesses and counterexamples -/

/-- The retry settings every class builds by default
(`max_retries=3, initial=1.0, multiplier=5.0, max=30.0`). -/
def defaultRetryPolicy : RetryPolicy :=
  ⟨3, 1, 5, 30⟩

/-- A policy whose initial delay exceeds its delay cap. -/
def c2Policy : RetryPolicy :=
  ⟨1, 50, 2, 30⟩

/-- An operation that fails on its first invocation only. -/
def c2FailOnce : Nat → Except TransportErr HttpResponse :=
  fun attempt => if attempt = 0 then .error .connectionError else .ok ⟨200, "ok"⟩

/-- An operation that times out once and then succeeds with 201. -/
def c2WitnessOp : Nat → Except TransportErr HttpResponse :=
  fun attempt => if attempt = 0 then .error .timeoutError else .ok ⟨201, "created"⟩

/-- An operation that times out on every invocation. -/
def c3AlwaysFail : Nat → Except TransportErr HttpResponse :=
  fun _ => .error .timeoutError

/-- An operation that always returns an HTTP 500 response (no transport
exception). -/
def c4Status500 : Nat → Except TransportErr HttpResponse :=
  fun _ => .ok ⟨500, "Internal Server Error"⟩

/-- A serialized envelope whose `value` field is not decodable base64 (three
data characters and no padding: `binascii.Error`). -/
def c5BadPaddingWire : String :=
  dumps (JVal.obj [("_type", JVal.str "cache.CacheEntry"), ("value", JVal.str "abc")])

/-- A transport on which every request, the schema GET included, returns 200. -/
def c6AllOkNet : NetOracle :=
  fun _ _ => .ok ⟨200, "registered"⟩

/-- A transport whose schema GET returns the schema text with 200. -/
def c6WitnessNet : NetOracle :=
  fun _ _ => .ok ⟨200, "schema text"⟩

/-- The spec's worked example:
`{memory_size: "50MB", ttl_hours: 2, l1_expiration_minutes: 30}`. -/
def exampleSettings50MB : CacheSettings :=
  { enabled := none
    memory_size := some "50MB"
    ttl_hours := some 2
    l1_expiration_minutes := some 30
    l1_expiration_hours := none
    persistence := none }

/-- A transport answering every request with 404. -/
def c8Net404 : NetOracle :=
  fun _ _ => .ok ⟨404, "not found"⟩

/-- A transport answering every request with 200. -/
def c8Net200 : NetOracle :=
  fun _ _ => .ok ⟨200, "cache info"⟩

/-- A transport on which every attempt raises a connection error. -/
def c8NetDown : NetOracle :=
  fun _ _ => .error .connectionError

/-- A healthy transport for the unconfigured-cache witness. -/
def c9Net : NetOracle :=
  fun _ _ => .ok ⟨200, "up"⟩

/-- A transport whose cache-metadata GET succeeds with 200. -/
def c10Net : NetOracle :=
  fun _ _ => .ok ⟨200, "cache info"⟩

/-- A JSON-representable (non-string) value, as in the repository's tests. -/
def c1WitnessVal : JVal :=
  JVal.obj [("name", JVal.str "John"), ("age", JVal.num 30)]

/-! ## Properties of the retry loop -/

/-- A successful attempt returns at once. -/
theorem retry_loop_ok (op : Nat → Except TransportErr HttpResponse) (mult maxd : ℚ)
    (attempt rem : Nat) (delay : ℚ) (r : HttpResponse) (h : op attempt = .ok r) :
    retry_loop op mult maxd attempt (rem + 1) delay = ⟨.ok r, 1, []⟩ := by
  simp [retry_loop, h]

/-- A failure on the final allowed attempt re-raises it. -/
theorem retry_loop_last (op : Nat → Except TransportErr HttpResponse) (mult maxd : ℚ)
    (attempt : Nat) (delay : ℚ) (e : TransportErr) (he : op attempt = .error e) :
    retry_loop op mult maxd attempt 1 delay = ⟨.error e, 1, []⟩ := by
  simp [retry_loop, he]

/-- One failed attempt with retries left: sleep `delay`, recurse with the
capped multiplied delay. -/
theorem retry_loop_step (op : Nat → Except TransportErr HttpResponse) (mult maxd : ℚ)
    (attempt rem : Nat) (delay : ℚ) (e : TransportErr)
    (he : op attempt = .error e) (hrem : rem ≠ 0) :
    retry_loop op mult maxd attempt (rem + 1) delay =
      ⟨(retry_loop op mult maxd (attempt + 1) rem (min (delay * mult) maxd)).result,
       (retry_loop op mult maxd (attempt + 1) rem (min (delay * mult) maxd)).calls + 1,
       delay :: (retry_loop op mult maxd (attempt + 1) rem (min (delay * mult) maxd)).sleeps⟩ := by
  simp only [retry_loop, he, hrem, if_false]

/-- The loop after `k` failures followed by a success: `k + 1` invocations and
the `k` successive backoff delays. -/
theorem retry_loop_fail_then_ok (op : Nat → Except TransportErr HttpResponse)
    (mult maxd : ℚ) (r : HttpResponse) :
    ∀ (k attempt rem : Nat) (delay : ℚ),
      k < rem →
      (∀ i, i < k → ∃ e, op (attempt + i) = .error e) →
      op (attempt + k) = .ok r →
      retry_loop op mult maxd attempt rem delay = ⟨.ok r, k + 1, delay_seq mult maxd delay k⟩
  | 0, attempt, rem, delay, hk, _, hok => by
    match rem, hk with
    | rem' + 1, _ => exact retry_loop_ok op mult maxd attempt rem' delay r hok
  | k + 1, attempt, rem, delay, hk, hfail, hok => by
    match rem, hk with
    | rem' + 2, _ =>
      obtain ⟨e0, he0⟩ := hfail 0 (by omega)
      rw [Nat.add_zero] at he0
      have ih := retry_loop_fail_then_ok op mult maxd r k (attempt + 1) (rem' + 1)
        (min (delay * mult) maxd) (by omega)
        (fun i hi => by
          obtain ⟨e, he⟩ := hfail (i + 1) (by omega)
          exact ⟨e, by rw [show attempt + 1 + i = attempt + (i + 1) from by omega]; exact he⟩)
        (by rw [show attempt + 1 + k = attempt + (k + 1) from by omega]; exact hok)
      rw [show rem' + 2 = (rem' + 1) + 1 from rfl,
        retry_loop_step op mult maxd attempt (rem' + 1) delay e0 he0 (Nat.succ_ne_zero rem'),
        ih]
      simp [delay_seq]

/-- The loop when every allowed attempt fails: `rem` invocations and the final
attempt's exception re-raised. -/
theorem retry_loop_all_fail (op : Nat → Except TransportErr HttpResponse)
    (mult maxd : ℚ) (e : TransportErr) :
    ∀ (rem attempt : Nat) (delay : ℚ),
      (∀ i, i + 1 < rem → ∃ e', op (attempt + i) = .error e') →
      op (attempt + (rem - 1)) = .error e →
      1 ≤ rem →
      (retry_loop op mult maxd attempt rem delay).result = .error e ∧
      (retry_loop op mult maxd attempt rem delay).calls = rem
  | 1, attempt, delay, _, hlast, _ => by
    rw [Nat.add_zero] at hlast
    simp [retry_loop, hlast]
  | rem' + 2, attempt, delay, hfail, hlast, _ => by
    obtain ⟨e0, he0⟩ := hfail 0 (by omega)
    rw [Nat.add_zero] at he0
    have ih := retry_loop_all_fail op mult maxd e (rem' + 1) (attempt + 1)
      (min (delay * mult) maxd)
      (fun i hi => by
        obtain ⟨e', he'⟩ := hfail (i + 1) (by omega)
        exact ⟨e', by rw [← he']; ring_nf⟩)
      (by rw [← hlast]; congr 1; omega) (by omega)
    rw [show rem' + 2 = (rem' + 1) + 1 from rfl,
      retry_loop_step op mult maxd attempt (rem' + 1) delay e0 he0 (Nat.succ_ne_zero rem')]
    exact ⟨ih.1, by rw [ih.2]⟩

/-- `delay_seq` produces one delay per sleep. -/
theorem delay_seq_length (mult maxd : ℚ) :
    ∀ (d : ℚ) (k : Nat), (delay_seq mult maxd d k).length = k
  | _, 0 => rfl
  | d, k + 1 => by simp [delay_seq, delay_seq_length mult maxd _ k]

/-- Capping commutes with a further multiplication by a factor of at least one:
iterating `min (- * y) cap` from a capped value is the same as capping the
uncapped product. -/
theorem min_cap_mul (x y cap : ℚ) (hy : 1 ≤ y) (hcap : 0 ≤ cap) :
    min (min x cap * y) cap = min (x * y) cap := by
  rcases le_total x cap with h | h
  · rw [min_eq_left h]
  · rw [min_eq_right h, min_eq_right (le_mul_of_one_le_right hcap hy),
      min_eq_right (le_trans h (le_mul_of_one_le_right (le_trans hcap h) hy))]

/-- Closed form of the backoff delays: the first sleep is the (uncapped)
initial delay, each later sleep `i` is `min (initial * mult ^ i) maxd`. -/
theorem delay_seq_get (mult maxd : ℚ) (hm : 1 ≤ mult) (hcap : 0 ≤ maxd) :
    ∀ (k : Nat) (d : ℚ) (i : Nat), 0 ≤ d → i < k →
      (delay_seq mult maxd d k)[i]? =
        some (if i = 0 then d else min (d * mult ^ i) maxd)
  | 0, _, i, _, hi => absurd hi (by omega)
  | k + 1, d, 0, _, _ => by simp [delay_seq]
  | k + 1, d, j + 1, hd, hi => by
    have hd' : 0 ≤ min (d * mult) maxd :=
      le_min (mul_nonneg hd (le_trans zero_le_one hm)) hcap
    have ih := delay_seq_get mult maxd hm hcap k (min (d * mult) maxd) j hd' (by omega)
    simp only [delay_seq, List.getElem?_cons_succ]
    rw [ih, if_neg (Nat.succ_ne_zero j)]
    rcases Nat.eq_zero_or_pos j with rfl | hj
    · simp [pow_one]
    · rw [if_neg (by omega : j ≠ 0)]
      rw [min_cap_mul (d * mult) (mult ^ j) maxd (one_le_pow₀ hm) hcap]
      rw [mul_assoc, ← pow_succ']

/-! ## Claims C2, C3, C4: the retry executor -/

/-- C2 (amended): for a retry policy with `maxRetries ≥ 0`, nonnegative
`initialDelay` and `maxDelay` and `backoffMultiplier ≥ 1`, if the operation
fails on its first `k ≤ maxRetries` invocations and succeeds on invocation
`k`, the retry helper invokes it exactly `k + 1` times and sleeps exactly `k`
times; the first sleep is `initialDelay` (uncapped — this is where the
original claim fails), and sleep `i ≥ 1` is
`min (initialDelay * backoffMultiplier ^ i, maxDelay)`. -/
theorem c2_retry_backoff_amended (p : RetryPolicy) (op : Nat → Except TransportErr HttpResponse)
    (r : HttpResponse) (k : Nat)
    (hd0 : 0 ≤ p.initial_retry_delay) (hm : 1 ≤ p.retry_backoff_multiplier)
    (hcap : 0 ≤ p.max_retry_delay) (hk : k ≤ p.max_retries)
    (hfail : ∀ i, i < k → ∃ e, op i = .error e) (hok : op k = .ok r) :
    (run_with_retry p op).result = .ok r ∧
    (run_with_retry p op).calls = k + 1 ∧
    (run_with_retry p op).sleeps.length = k ∧
    ∀ i, i < k → (run_with_retry p op).sleeps[i]? =
      some (if i = 0 then p.initial_retry_delay
            else min (p.initial_retry_delay * p.retry_backoff_multiplier ^ i)
              p.max_retry_delay) := by
  have h := retry_loop_fail_then_ok op p.retry_backoff_multiplier p.max_retry_delay r
    k 0 (p.max_retries + 1) p.initial_retry_delay (by omega)
    (fun i hi => by simpa using hfail i hi) (by simpa using hok)
  rw [run_with_retry, h]
  refine ⟨rfl, rfl, delay_seq_length _ _ _ _, fun i hi => ?_⟩
  exact delay_seq_get p.retry_backoff_multiplier p.max_retry_delay hm hcap
    k p.initial_retry_delay i hd0 hi

/-- C2 counterexample: under the policy `maxRetries = 1, initialDelay = 50,
multiplier = 2, maxDelay = 30` and an operation failing exactly once, the one
sleep is 50 seconds, while the claimed formula
`min (initialDelay * multiplier ^ 0, maxDelay)` gives 30. -/
theorem c2_retry_backoff_counterexample :
    (run_with_retry c2Policy c2FailOnce).sleeps = [50] ∧
    min (c2Policy.initial_retry_delay * c2Policy.retry_backoff_multiplier ^ (0 : Nat))
      c2Policy.max_retry_delay = 30 ∧
    (50 : ℚ) ≠ 30 := by
  refine ⟨rfl, ?_, by norm_num⟩
  show min ((50 : ℚ) * 2 ^ (0 : Nat)) 30 = 30
  norm_num

/-- C2 witness: the amended theorem applied to the default policy and an
operation that fails once; the single sleep is the initial one-second delay. -/
theorem c2_retry_backoff_witness :
    (run_with_retry defaultRetryPolicy c2WitnessOp).result = .ok ⟨201, "created"⟩ ∧
    (run_with_retry defaultRetryPolicy c2WitnessOp).calls = 2 ∧
    (run_with_retry defaultRetryPolicy c2WitnessOp).sleeps.length = 1 ∧
    (run_with_retry defaultRetryPolicy c2WitnessOp).sleeps[0]? = some 1 := by
  have h := c2_retry_backoff_amended defaultRetryPolicy c2WitnessOp ⟨201, "created"⟩ 1
    (by norm_num [defaultRetryPolicy]) (by norm_num [defaultRetryPolicy])
    (by norm_num [defaultRetryPolicy]) (by norm_num [defaultRetryPolicy])
    (fun i hi => by
      match i, hi with
      | 0, _ => exact ⟨.timeoutError, rfl⟩)
    rfl
  refine ⟨h.1, h.2.1, h.2.2.1, by rw [h.2.2.2 0 (by norm_num)]; simp [defaultRetryPolicy]⟩

/-- C3 (confirmed): if the operation raises a transport error on every
invocation, the retry helper invokes it exactly `maxRetries + 1` times and
re-raises the failure of the last attempt. -/
theorem c3_retry_exhaustion (p : RetryPolicy) (op : Nat → Except TransportErr HttpResponse)
    (e : TransportErr)
    (hfail : ∀ i, i ≤ p.max_retries → ∃ e', op i = .error e')
    (hlast : op p.max_retries = .error e) :
    (run_with_retry p op).result = .error e ∧
    (run_with_retry p op).calls = p.max_retries + 1 := by
  rw [run_with_retry]
  exact retry_loop_all_fail op p.retry_backoff_multiplier p.max_retry_delay e
    (p.max_retries + 1) 0 p.initial_retry_delay
    (fun i hi => by simpa using hfail i (by omega))
    (by simpa using hlast) (by omega)

/-- C3 witness: the exhaustion theorem at the default policy and an operation
that times out on all four attempts. -/
theorem c3_retry_exhaustion_witness :
    (run_with_retry defaultRetryPolicy c3AlwaysFail).result = .error .timeoutError ∧
    (run_with_retry defaultRetryPolicy c3AlwaysFail).calls = 4 :=
  c3_retry_exhaustion defaultRetryPolicy c3AlwaysFail .timeoutError
    (fun _ _ => ⟨.timeoutError, rfl⟩) rfl

/-- C4 (confirmed): if the first invocation returns an HTTP response — any
status code, 4xx and 5xx included — the retry helper returns it after exactly
one invocation, with no sleeping. -/
theorem c4_http_status_not_retried (p : RetryPolicy)
    (op : Nat → Except TransportErr HttpResponse) (r : HttpResponse)
    (h : op 0 = .ok r) :
    run_with_retry p op = ⟨.ok r, 1, []⟩ := by
  rw [run_with_retry]
  exact retry_loop_ok op p.retry_backoff_multiplier p.max_retry_delay 0 p.max_retries
    p.initial_retry_delay r h

/-- C4 witness: a permanent HTTP 500 responder is invoked once and its
response returned unretried. -/
theorem c4_http_status_not_retried_witness :
    run_with_retry defaultRetryPolicy c4Status500 =
      ⟨.ok ⟨500, "Internal Server Error"⟩, 1, []⟩ :=
  c4_http_status_not_retried defaultRetryPolicy c4Status500 ⟨500, "Internal Server Error"⟩ rfl

/-! ## Claim C7: the server cache definition -/

/-- C7 (confirmed): the cache definition is a pure function of the settings:
lifespan is `ttlHours * 3600000` ms, `l1-lifespan` and `l1-cleanup-interval`
both equal the resolved L1 expiration (minutes × 60000 first, else
hours × 3600000, else 1800000), `max-size` is the configured size string, and
the spec's worked example produces lifespan 7200000, l1-lifespan 1800000 and
max-size "50MB". -/
theorem c7_cache_definition (c : CacheSettings) :
    (build_cache_config c).expiration.lifespan = c.ttl_hours.getD 2 * 3600000 ∧
    (build_cache_config c).l1_lifespan = get_l1_expiration_ms c ∧
    (build_cache_config c).l1_cleanup_interval = get_l1_expiration_ms c ∧
    (build_cache_config c).memory.max_size = c.memory_size.getD "50MB" ∧
    (∀ m, c.l1_expiration_minutes = some m → get_l1_expiration_ms c = m * 60000) ∧
    (∀ h, c.l1_expiration_minutes = none → c.l1_expiration_hours = some h →
      get_l1_expiration_ms c = h * 3600000) ∧
    (c.l1_expiration_minutes = none → c.l1_expiration_hours = none →
      get_l1_expiration_ms c = 1800000) ∧
    (build_cache_config exampleSettings50MB).expiration.lifespan = 7200000 ∧
    (build_cache_config exampleSettings50MB).l1_lifespan = 1800000 ∧
    (build_cache_config exampleSettings50MB).l1_cleanup_interval = 1800000 ∧
    (build_cache_config exampleSettings50MB).memory.max_size = "50MB" := by
  refine ⟨?_, rfl, rfl, rfl, ?_, ?_, ?_, rfl, rfl, rfl, rfl⟩
  · show c.ttl_hours.getD 2 * 60 * 60 * 1000 = c.ttl_hours.getD 2 * 3600000
    ring
  · intro m hm
    show get_l1_expiration_ms c = m * 60000
    rw [get_l1_expiration_ms, hm]
    ring
  · intro h hmin hh
    rw [get_l1_expiration_ms, hmin, hh]
    ring
  · intro hmin hh
    rw [get_l1_expiration_ms, hmin, hh]
    rfl

/-- C7 witness: the minutes-priority branch of the theorem, discharged at the
worked example (30 minutes resolve to 1800000 ms). -/
theorem c7_cache_definition_witness :
    get_l1_expiration_ms exampleSettings50MB = 30 * 60000 :=
  (c7_cache_definition exampleSettings50MB).2.2.2.2.1 30 rfl

/-! ## Claim C8: `cache_exists` -/

/-- C8 (confirmed): for every cache name, the existence check is true exactly
when the metadata GET returns 200 (any other status gives false), and a
transport failure surviving all retries is swallowed and reported as false. -/
theorem c8_cache_exists_semantics (p : RetryPolicy) (net : NetOracle)
    (base_url cache_name : String) :
    (∀ k r, k ≤ p.max_retries →
      (∀ i, i < k → ∃ e, net i (.get (rest_caches_url base_url cache_name)) = .error e) →
      net k (.get (rest_caches_url base_url cache_name)) = .ok r →
      (cache_exists p net base_url cache_name).1 = (r.status == 200)) ∧
    ((∀ i, i ≤ p.max_retries → ∃ e, net i (.get (rest_caches_url base_url cache_name)) = .error e) →
      (cache_exists p net base_url cache_name).1 = false) := by
  constructor
  · intro k r hk hfail hok
    have h := retry_loop_fail_then_ok (fun a => net a (.get (rest_caches_url base_url cache_name)))
      p.retry_backoff_multiplier p.max_retry_delay r k 0 (p.max_retries + 1)
      p.initial_retry_delay (by omega) (fun i hi => by simpa using hfail i hi)
      (by simpa using hok)
    simp only [cache_exists, cache_exists_with_retry, run_with_retry, h]
  · intro hfail
    obtain ⟨e, he⟩ := hfail p.max_retries (le_refl _)
    have h := retry_loop_all_fail (fun a => net a (.get (rest_caches_url base_url cache_name)))
      p.retry_backoff_multiplier p.max_retry_delay e (p.max_retries + 1) 0
      p.initial_retry_delay (fun i hi => by simpa using hfail i (by omega))
      (by simpa using he) (by omega)
    simp only [cache_exists, cache_exists_with_retry, run_with_retry]
    rw [h.1]

/-- C8 witness: the semantics theorem applied to a 200 transport (true), a 404
transport (false), and a transport that is down on every attempt (false, no
exception). -/
theorem c8_cache_exists_semantics_witness :
    (cache_exists defaultRetryPolicy c8Net200 "http://h:11222/rest/v2" "users").1 = true ∧
    (cache_exists defaultRetryPolicy c8Net404 "http://h:11222/rest/v2" "users").1 = false ∧
    (cache_exists defaultRetryPolicy c8NetDown "http://h:11222/rest/v2" "users").1 = false := by
  refine ⟨?_, ?_, ?_⟩
  · exact ((c8_cache_exists_semantics defaultRetryPolicy c8Net200 "http://h:11222/rest/v2"
      "users").1 0 ⟨200, "cache info"⟩ (by norm_num [defaultRetryPolicy])
      (fun i hi => absurd hi (by omega)) rfl).trans (by decide)
  · exact ((c8_cache_exists_semantics defaultRetryPolicy c8Net404 "http://h:11222/rest/v2"
      "users").1 0 ⟨404, "not found"⟩ (by norm_num [defaultRetryPolicy])
      (fun i hi => absurd hi (by omega)) rfl).trans (by decide)
  · exact (c8_cache_exists_semantics defaultRetryPolicy c8NetDown "http://h:11222/rest/v2"
      "users").2 (fun i _ => ⟨.connectionError, rfl⟩)

/-! ## Claim C9: `create_cache` on an unconfigured name -/

/-- C9 (confirmed): creating a cache absent from the configuration mapping
raises `ValueError` before issuing any network request — the issued-request
list is empty, so neither an existence check nor a create request was sent. -/
theorem c9_unconfigured_cache_raises (p : RetryPolicy) (net : NetOracle)
    (caches : List (String × CacheSettings)) (base_url cache_name : String)
    (h : get_cache_config caches cache_name = none) :
    create_cache p net caches base_url cache_name = (.error .valueError, []) := by
  simp [create_cache, h]

/-- C9 witness: the theorem at an empty configuration mapping. -/
theorem c9_unconfigured_cache_raises_witness :
    create_cache defaultRetryPolicy c9Net [] "http://h:11222/rest/v2" "users" =
      (.error .valueError, []) :=
  c9_unconfigured_cache_raises defaultRetryPolicy c9Net [] "http://h:11222/rest/v2" "users" rfl

/-! ## Claim C10: `put` on a non-serializable value -/

/-- C10 (confirmed): when the cache exists but the value is not
JSON-serializable (so `_serialize_value` raises), `put` returns false instead
of propagating the exception, and issues no PUT request — only the
existence-check GET. -/
theorem c10_put_serialization_failure (p : RetryPolicy) (net : NetOracle)
    (caches : List (String × CacheSettings)) (base_url cache_name key tag : String)
    (r : HttpResponse)
    (hnet : net 0 (.get (rest_caches_url base_url cache_name)) = .ok r)
    (hstatus : r.status = 200) :
    CacheOperations.put p net caches base_url cache_name key (.nonJson tag) =
      (false, [.get (rest_caches_url base_url cache_name)]) := by
  have hex : cache_exists p net base_url cache_name =
      (true, [.get (rest_caches_url base_url cache_name)]) := by
    have h := retry_loop_ok (fun a => net a (.get (rest_caches_url base_url cache_name)))
      p.retry_backoff_multiplier p.max_retry_delay 0 p.max_retries p.initial_retry_delay r hnet
    simp [cache_exists, cache_exists_with_retry, run_with_retry, h, hstatus]
  simp [CacheOperations.put, CacheOperations.ensure_cache_exists, hex, serialize_value,
    encode_value, Except.map]

/-- C10 witness: the theorem at a healthy transport and the value tagged as a
Python set (not JSON-serializable). -/
theorem c10_put_serialization_failure_witness :
    CacheOperations.put defaultRetryPolicy c10Net [] "http://h:11222/rest/v2" "users" "k"
      (.nonJson "set") =
      (false, [.get (rest_caches_url "http://h:11222/rest/v2" "users")]) :=
  c10_put_serialization_failure defaultRetryPolicy c10Net [] "http://h:11222/rest/v2" "users"
    "k" "set" ⟨200, "cache info"⟩ rfl rfl

/-! ## Claim C6: idempotent schema registration -/

/-- C6 (amended): the idempotent existence check guards only the fixed
CacheEntry schema registration: when the schema GET reports
`cache_entry.proto` as registered, `register_cache_entry_schema` returns true
having issued only that GET — no registration POST.  (The generic
`register_schema(name, content)` POSTs unconditionally; see the
counterexample.) -/
theorem c6_register_idempotent_amended (p : RetryPolicy) (net : NetOracle)
    (base_url : String) (r : HttpResponse)
    (hnet : net 0 (.get (rest_schema_url base_url "cache_entry.proto")) = .ok r)
    (hstatus : r.status = 200) :
    register_cache_entry_schema p net base_url =
      (true, [.get (rest_schema_url base_url "cache_entry.proto")]) := by
  have h := retry_loop_ok (fun a => net a (.get (rest_schema_url base_url "cache_entry.proto")))
    p.retry_backoff_multiplier p.max_retry_delay 0 p.max_retries p.initial_retry_delay r hnet
  simp [register_cache_entry_schema, schema_exists, get_schema, get_schema_with_retry,
    run_with_retry, h, hstatus]

/-- C6 counterexample: a name and content for which the existence check
reports the schema as registered, yet `register_schema` still issues the
registration POST — the claim's "without issuing a registration POST request"
fails for the generic registration method. -/
theorem c6_register_idempotent_counterexample :
    (schema_exists defaultRetryPolicy c6AllOkNet "http://h:11222/rest/v2" "custom.proto").1
      = true ∧
    (register_schema defaultRetryPolicy c6AllOkNet "http://h:11222/rest/v2" "custom.proto"
      "message Custom").2 =
      [.post_data (rest_schema_url "http://h:11222/rest/v2" "custom.proto") "message Custom"] :=
  ⟨rfl, rfl⟩

/-- C6 witness: the amended theorem at a transport whose schema GET returns
the schema text with status 200. -/
theorem c6_register_idempotent_witness :
    register_cache_entry_schema defaultRetryPolicy c6WitnessNet "http://h:11222/rest/v2" =
      (true, [.get (rest_schema_url "http://h:11222/rest/v2" "cache_entry.proto")]) :=
  c6_register_idempotent_amended defaultRetryPolicy c6WitnessNet "http://h:11222/rest/v2"
    ⟨200, "schema text"⟩ rfl rfl

/-! ## Digit tokens: emission inverts parsing -/

/-- Every character `natToChars` can emit is `digitChr d` for some `d < 10`. -/
theorem digitChr_isDigit : ∀ d, d < 10 → (digitChr d).isDigit = true := by decide

/-- The digit character carries its digit. -/
theorem digitChr_toNat : ∀ d, d < 10 → (digitChr d).toNat = 48 + d := by decide

/-- Enough fuel makes the fuel immaterial, and the accumulator rides along. -/
theorem natChars_shift : ∀ (n fuel : Nat) (acc : List Char), n < fuel →
    natChars fuel n acc = natToChars n ++ acc := by
  intro n
  induction n using Nat.strongRecOn with
  | _ n ih =>
    intro fuel acc hfuel
    match fuel, hfuel with
    | fuel + 1, _ =>
      rw [show natChars (fuel + 1) n acc =
            if n < 10 then digitChr (n % 10) :: acc
            else natChars fuel (n / 10) (digitChr (n % 10) :: acc) from rfl,
          show natToChars n =
            if n < 10 then digitChr (n % 10) :: ([] : List Char)
            else natChars n (n / 10) (digitChr (n % 10) :: ([] : List Char)) from rfl]
      by_cases h10 : n < 10
      · simp [h10]
      · have hdiv : n / 10 < n := Nat.div_lt_self (by omega) (by omega)
        rw [if_neg h10, if_neg h10,
          ih (n / 10) hdiv fuel (digitChr (n % 10) :: acc) (by omega),
          ih (n / 10) hdiv n (digitChr (n % 10) :: []) hdiv]
        simp

/-- Last-digit-first unfolding of the digit emitter. -/
theorem natToChars_concat (n : Nat) :
    natToChars n = (if n < 10 then [] else natToChars (n / 10)) ++ [digitChr (n % 10)] := by
  rw [show natToChars n =
        if n < 10 then digitChr (n % 10) :: ([] : List Char)
        else natChars n (n / 10) (digitChr (n % 10) :: ([] : List Char)) from rfl]
  by_cases h10 : n < 10
  · simp [h10]
  · rw [if_neg h10, if_neg h10,
      natChars_shift (n / 10) n _ (Nat.div_lt_self (by omega) (by omega))]

/-- A digit run is never empty. -/
theorem natToChars_ne_nil (n : Nat) : natToChars n ≠ [] := by
  rw [natToChars_concat]
  simp

/-- Every emitted digit character is some `digitChr d`, `d < 10`. -/
theorem natToChars_chars : ∀ (n : Nat), ∀ c ∈ natToChars n, ∃ d, d < 10 ∧ c = digitChr d := by
  intro n
  induction n using Nat.strongRecOn with
  | _ n ih =>
    rw [natToChars_concat]
    intro c hc
    rw [List.mem_append] at hc
    rcases hc with hc | hc
    · by_cases h10 : n < 10
      · simp [h10] at hc
      · exact ih (n / 10) (Nat.div_lt_self (by omega) (by omega)) c (by simpa [h10] using hc)
    · rw [List.mem_singleton] at hc
      exact ⟨n % 10, Nat.mod_lt _ (by omega), hc⟩

/-- Digit-run emission is digit characters only. -/
theorem natToChars_digits (n : Nat) : ∀ c ∈ natToChars n, c.isDigit = true := by
  intro c hc
  obtain ⟨d, hd, rfl⟩ := natToChars_chars n c hc
  exact digitChr_isDigit d hd

/-- Reading the emitted digits back gives the number. -/
theorem digitsVal_natToChars : ∀ (n : Nat), digitsVal (natToChars n) = n := by
  intro n
  induction n using Nat.strongRecOn with
  | _ n ih =>
    rw [natToChars_concat]
    by_cases h10 : n < 10
    · simp only [if_pos h10, List.nil_append, digitsVal, List.foldl_cons, List.foldl_nil]
      rw [digitChr_toNat (n % 10) (Nat.mod_lt _ (by omega))]
      omega
    · simp only [if_neg h10, digitsVal, List.foldl_append, List.foldl_cons, List.foldl_nil]
      have := ih (n / 10) (Nat.div_lt_self (by omega) (by omega))
      rw [digitsVal] at this
      rw [this, digitChr_toNat (n % 10) (Nat.mod_lt _ (by omega))]
      omega

/-- A digit run followed by a non-digit splits exactly at the run boundary. -/
theorem digit_run_split : ∀ (ds rest : List Char), (∀ c ∈ ds, c.isDigit = true) →
    numStop rest = true →
    (ds ++ rest).takeWhile Char.isDigit = ds ∧ (ds ++ rest).dropWhile Char.isDigit = rest := by
  intro ds
  induction ds with
  | nil =>
    intro rest _ hrest
    match rest, hrest with
    | [], _ => exact ⟨rfl, rfl⟩
    | c :: t, hrest =>
      have hc : c.isDigit = false := by
        rw [numStop] at hrest
        simpa using hrest
      simp [List.takeWhile, List.dropWhile, hc]
  | cons c ds ihd =>
    intro rest hds hrest
    have hc : c.isDigit = true := hds c (by simp)
    have ih := ihd rest (fun x hx => hds x (by simp [hx])) hrest
    simp [List.takeWhile, List.dropWhile, hc, ih.1, ih.2]

/-- The natural-number token parser inverts digit emission. -/
theorem parseNatTok_emit (n : Nat) (rest : List Char) (hrest : numStop rest = true) :
    parseNatTok (natToChars n ++ rest) = some (n, rest) := by
  obtain ⟨htake, hdrop⟩ := digit_run_split (natToChars n) rest (natToChars_digits n) hrest
  rw [parseNatTok, htake, hdrop, if_neg (natToChars_ne_nil n), digitsVal_natToChars]

/-- A digit character differs from the characters the value dispatch and the
sign test look for. -/
theorem digitChr_ne : ∀ d, d < 10 →
    digitChr d ≠ '-' ∧ digitChr d ≠ ']' ∧ digitChr d ≠ '}' ∧ digitChr d ≠ 'n' ∧
    digitChr d ≠ 't' ∧ digitChr d ≠ 'f' ∧ digitChr d ≠ '"' ∧ digitChr d ≠ '[' ∧
    digitChr d ≠ '{' ∧ isWsChar (digitChr d) = false := by decide

/-- The signed-integer token parser inverts integer emission. -/
theorem parseNumTok_emit (i : Int) (rest : List Char) (hrest : numStop rest = true) :
    parseNumTok (intToChars i ++ rest) = some (i, rest) := by
  by_cases hneg : i < 0
  · rw [show intToChars i ++ rest = '-' :: (natToChars i.natAbs ++ rest) by
      simp [intToChars, hneg]]
    rw [parseNumTok]
    simp only [List.head?_cons, if_pos rfl, List.tail_cons]
    rw [parseNatTok_emit i.natAbs rest hrest]
    simp only [Option.map_some']
    rw [show -((i.natAbs : Int)) = i by omega]
    simp
  · obtain ⟨c0, t0, h0⟩ : ∃ c0 t0, natToChars i.natAbs = c0 :: t0 := by
      match h : natToChars i.natAbs with
      | [] => exact absurd h (natToChars_ne_nil _)
      | c :: t => exact ⟨c, t, rfl⟩
    obtain ⟨d, hd, hcd⟩ := natToChars_chars i.natAbs c0 (h0 ▸ List.mem_cons_self ..)
    have hne : c0 ≠ '-' := hcd ▸ (digitChr_ne d hd).1
    rw [show intToChars i ++ rest = natToChars i.natAbs ++ rest by simp [intToChars, hneg]]
    rw [parseNumTok, h0]
    simp only [List.cons_append, List.head?_cons]
    rw [if_neg (by simpa using hne)]
    rw [show c0 :: (t0 ++ rest) = natToChars i.natAbs ++ rest by rw [h0]; rfl,
      parseNatTok_emit i.natAbs rest hrest]
    simp only [Option.map_some']
    rw [show ((i.natAbs : Int)) = i by omega]

/-! ## String literals: emission inverts parsing -/

/-- `String.mk` and `String.data` are mutually inverse. -/
theorem String.mk_data_eq (s : String) : String.mk s.data = s := by
  cases s
  rfl

/-- Parsing a rendered string body recovers the characters up to the closing
quote, whatever follows it. -/
theorem parseStrBody_emit : ∀ (cs rest : List Char),
    parseStrBody (cs.flatMap escChar ++ '"' :: rest) = some (String.mk cs, rest) := by
  intro cs
  induction cs with
  | nil =>
    intro rest
    rfl
  | cons c cs ih =>
    intro rest
    rw [List.flatMap_cons, List.append_assoc]
    by_cases hq : c = '"'
    · subst hq
      rw [show escChar '"' = ['\\', '"'] from rfl]
      show parseStrEscaped ('"' :: (cs.flatMap escChar ++ '"' :: rest)) = _
      rw [parseStrEscaped, if_pos (by decide), ih rest]
      rfl
    · by_cases hb : c = '\\'
      · subst hb
        rw [show escChar '\\' = ['\\', '\\'] from rfl]
        show parseStrEscaped ('\\' :: (cs.flatMap escChar ++ '"' :: rest)) = _
        rw [parseStrEscaped, if_pos (by decide), ih rest]
        rfl
      · rw [show escChar c = [c] by simp [escChar, hq, hb]]
        rw [List.singleton_append, parseStrBody, if_neg hq, if_neg hb, ih rest]
        rfl

/-! ## Whitespace and head-shape facts about emitted values -/

/-- `skipSpace` does not touch a non-whitespace head. -/
theorem skipSpace_cons (c : Char) (t : List Char) (h : isWsChar c = false) :
    skipSpace (c :: t) = c :: t := by
  simp [skipSpace, List.dropWhile_cons, h]

/-- A one-character match-up of `parseVal` over leading whitespace. -/
theorem parseVal_skip_one (fuel : Nat) (c : Char) (cs : List Char) (h : isWsChar c = true) :
    parseVal fuel (c :: cs) = parseVal fuel cs := by
  match fuel with
  | 0 => rfl
  | fuel + 1 =>
    have hs : skipSpace (c :: cs) = skipSpace cs := by
      simp [skipSpace, List.dropWhile_cons, h]
    simp only [parseVal, hs]

/-- `parseItems` ignores one leading whitespace character (its first step is
`parseVal`, which skips it). -/
theorem parseItems_skip_one (fuel : Nat) (c : Char) (cs : List Char) (h : isWsChar c = true) :
    parseItems fuel (c :: cs) = parseItems fuel cs := by
  match fuel with
  | 0 => rfl
  | fuel + 1 =>
    simp only [parseItems, parseVal_skip_one fuel c cs h]

/-- `parseFields` ignores one leading whitespace character. -/
theorem parseFields_skip_one (fuel : Nat) (c : Char) (cs : List Char) (h : isWsChar c = true) :
    parseFields fuel (c :: cs) = parseFields fuel cs := by
  match fuel with
  | 0 => rfl
  | fuel + 1 =>
    have hs : skipSpace (c :: cs) = skipSpace cs := by
      simp [skipSpace, List.dropWhile_cons, h]
    simp only [parseFields, hs]

/-- Every emitted value starts with a character that is not whitespace and
closes neither an array nor an object. -/
theorem emitVal_head (v : JVal) :
    ∃ c t, emitVal v = c :: t ∧ isWsChar c = false ∧ c ≠ ']' ∧ c ≠ '}' := by
  cases v with
  | null =>
    refine ⟨'n', _, rfl, ?_, ?_, ?_⟩ <;> decide
  | boolean b =>
    cases b
    · refine ⟨'f', _, rfl, ?_, ?_, ?_⟩ <;> decide
    · refine ⟨'t', _, rfl, ?_, ?_, ?_⟩ <;> decide
  | str s =>
    refine ⟨'"', _, rfl, ?_, ?_, ?_⟩ <;> decide
  | arr xs =>
    refine ⟨'[', _, rfl, ?_, ?_, ?_⟩ <;> decide
  | obj fs =>
    refine ⟨'{', _, rfl, ?_, ?_, ?_⟩ <;> decide
  | num i =>
    by_cases hneg : i < 0
    · refine ⟨'-', natToChars i.natAbs, by simp [emitVal, intToChars, hneg], ?_, ?_, ?_⟩
        <;> decide
    · obtain ⟨c0, t0, h0⟩ : ∃ c0 t0, natToChars i.natAbs = c0 :: t0 := by
        match h : natToChars i.natAbs with
        | [] => exact absurd h (natToChars_ne_nil _)
        | c :: t => exact ⟨c, t, rfl⟩
      obtain ⟨d, hd, hcd⟩ := natToChars_chars i.natAbs c0 (h0 ▸ List.mem_cons_self ..)
      obtain ⟨_, hbr, hbc, _, _, _, _, _, _, hws⟩ := digitChr_ne d hd
      refine ⟨c0, t0, ?_, hcd ▸ hws, hcd ▸ hbr, hcd ▸ hbc⟩
      simp [emitVal, intToChars, hneg, h0]

/-- Value dispatch on a minus sign or digit head: no keyword, quote, or
bracket pattern applies, so the number token is consumed. -/
theorem parseVal_num_dispatch (fuel : Nat) (c0 : Char) (t : List Char)
    (hnum : (decide (c0 = '-') || c0.isDigit) = true)
    (hside : isWsChar c0 = false ∧ c0 ≠ 'n' ∧ c0 ≠ 't' ∧ c0 ≠ 'f' ∧
      c0 ≠ '"' ∧ c0 ≠ '[' ∧ c0 ≠ '{') :
    parseVal (fuel + 1) (c0 :: t) =
      (parseNumTok (c0 :: t)).map (fun p => (.num p.1, p.2)) := by
  obtain ⟨hsp, h1, h2, h3, h4, h5, h6⟩ := hside
  simp only [parseVal, skipSpace_cons c0 t hsp]
  simp [h1, h2, h3, h4, h5, h6, hnum]

/-- Value dispatch on `[` followed by a non-`]` head: the element list is
parsed by `parseItems`. -/
theorem parseVal_arr_dispatch (fuel : Nat) (c0 : Char) (t : List Char)
    (hws : isWsChar c0 = false) (hbr : c0 ≠ ']') :
    parseVal (fuel + 1) ('[' :: (c0 :: t)) =
      (parseItems fuel (c0 :: t)).map (fun p => (.arr p.1, p.2)) := by
  show (match skipSpace (c0 :: t) with
        | ']' :: r2 => some (JVal.arr [], r2)
        | r2 => (parseItems fuel r2).map (fun (p : List JVal × List Char) => (JVal.arr p.1, p.2))) = _
  rw [skipSpace_cons c0 t hws]
  simp [hbr]

/-- Value dispatch on `{` followed by a non-`}` head: the member list is
parsed by `parseFields`. -/
theorem parseVal_obj_dispatch (fuel : Nat) (c0 : Char) (t : List Char)
    (hws : isWsChar c0 = false) (hbc : c0 ≠ '}') :
    parseVal (fuel + 1) ('{' :: (c0 :: t)) =
      (parseFields fuel (c0 :: t)).map (fun p => (.obj p.1, p.2)) := by
  show (match skipSpace (c0 :: t) with
        | '}' :: r2 => some (JVal.obj [], r2)
        | r2 => (parseFields fuel r2).map (fun (p : List (String × JVal) × List Char) => (JVal.obj p.1, p.2))) = _
  rw [skipSpace_cons c0 t hws]
  simp [hbc]

/-- Parsing an emitted number token inside `parseVal`. -/
theorem parseVal_num_emit (i : Int) (fuel : Nat) (rest : List Char)
    (hrest : numStop rest = true) :
    parseVal (fuel + 1) (intToChars i ++ rest) = some (.num i, rest) := by
  by_cases hneg : i < 0
  · rw [show intToChars i ++ rest = '-' :: (natToChars i.natAbs ++ rest) by
      simp [intToChars, hneg]]
    rw [parseVal_num_dispatch fuel '-' _ (by decide) (by decide)]
    rw [show '-' :: (natToChars i.natAbs ++ rest) = intToChars i ++ rest by
      simp [intToChars, hneg]]
    rw [parseNumTok_emit i rest hrest]
    rfl
  · obtain ⟨c0, t0, h0⟩ : ∃ c0 t0, natToChars i.natAbs = c0 :: t0 := by
      match h : natToChars i.natAbs with
      | [] => exact absurd h (natToChars_ne_nil _)
      | c :: t => exact ⟨c, t, rfl⟩
    obtain ⟨d, hd, hcd⟩ := natToChars_chars i.natAbs c0 (h0 ▸ List.mem_cons_self ..)
    obtain ⟨_, _, _, hn, ht, hf, hq, hbk, hbc, hws⟩ := digitChr_ne d hd
    have hg : (decide (c0 = '-') || c0.isDigit) = true := by
      rw [hcd, digitChr_isDigit d hd, Bool.or_true]
    rw [show intToChars i ++ rest = c0 :: (t0 ++ rest) by
      simp [intToChars, hneg, h0]]
    rw [parseVal_num_dispatch fuel c0 _ hg
      ⟨hcd ▸ hws, hcd ▸ hn, hcd ▸ ht, hcd ▸ hf, hcd ▸ hq, hcd ▸ hbk, hcd ▸ hbc⟩]
    rw [show c0 :: (t0 ++ rest) = intToChars i ++ rest by simp [intToChars, hneg, h0]]
    rw [parseNumTok_emit i rest hrest]
    rfl

/-- One-step unfolding of `parseItems` at successor fuel (definitional). -/
theorem parseItems_step (fuel : Nat) (cs : List Char) :
    parseItems (fuel + 1) cs =
      match parseVal fuel cs with
      | none => none
      | some (v, r) =>
        match skipSpace r with
        | ',' :: r2 => (parseItems fuel r2).map (fun p => (v :: p.1, p.2))
        | ']' :: r2 => some ([v], r2)
        | _ => none := rfl

/-- `parseFields` on a quote-headed input, the key read off (definitional). -/
theorem parseFields_quote_step (fuel : Nat) (W : List Char) :
    parseFields (fuel + 1) ('"' :: W) =
      match parseStrBody W with
      | none => none
      | some (k1, r1) =>
        match skipSpace r1 with
        | ':' :: r2 =>
          (match parseVal fuel r2 with
           | none => none
           | some (v1, r3) =>
             match skipSpace r3 with
             | ',' :: r4 => (parseFields fuel r4).map (fun p => ((k1, v1) :: p.1, p.2))
             | '}' :: r4 => some ([(k1, v1)], r4)
             | _ => none)
        | _ => none := rfl

/-- The member-separator continuation is `", "` before the remaining members. -/
theorem emitFieldSep_cons (f : String × JVal) (fs : List (String × JVal)) :
    emitFieldSep (f :: fs) = ',' :: ' ' :: emitFields (f :: fs) := by
  cases f
  rfl

/-- The element-separator continuation is `", "` before the remaining elements. -/
theorem emitSep_cons (x : JVal) (xs : List JVal) :
    emitSep (x :: xs) = ',' :: ' ' :: emitItems (x :: xs) := rfl

/-- After an object value, the member separator or the closing brace never
starts with a digit. -/
theorem numStop_fieldSep (fs : List (String × JVal)) (rest : List Char) :
    numStop (emitFieldSep fs ++ '}' :: rest) = true := by
  cases fs with
  | nil => rfl
  | cons f fs => cases f; rfl

mutual
/-- Parsing an emitted value consumes exactly it: the codec round-trip, one
value at a time, for any remainder that cannot extend a number token. -/
theorem rt_val : ∀ (v : JVal) (fuel : Nat) (rest : List Char),
    (emitVal v).length < fuel → numStop rest = true →
    parseVal fuel (emitVal v ++ rest) = some (v, rest)
  | .null, fuel, rest, hf, _ => by
    match fuel, hf with
    | fuel + 1, _ => rfl
  | .boolean true, fuel, rest, hf, _ => by
    match fuel, hf with
    | fuel + 1, _ => rfl
  | .boolean false, fuel, rest, hf, _ => by
    match fuel, hf with
    | fuel + 1, _ => rfl
  | .num i, fuel, rest, hf, hrest => by
    match fuel, hf with
    | fuel + 1, _ => exact parseVal_num_emit i fuel rest hrest
  | .str s, fuel, rest, hf, _ => by
    match fuel, hf with
    | fuel + 1, _ =>
      rw [show emitVal (.str s) ++ rest
            = '"' :: (s.data.flatMap escChar ++ '"' :: rest) by
          simp [emitVal, emitStr]]
      show (parseStrBody (s.data.flatMap escChar ++ '"' :: rest)).map
          (fun p => (JVal.str p.1, p.2)) = _
      rw [parseStrBody_emit s.data rest]
      rfl
  | .arr [], fuel, rest, hf, _ => by
    match fuel, hf with
    | fuel + 1, _ => rfl
  | .arr (x :: xs), fuel, rest, hf, _ => by
    match fuel, hf with
    | fuel + 1, _ =>
      obtain ⟨c0, t0, h0, hws, hbr, _⟩ := emitVal_head x
      have hitems : emitItems (x :: xs) = c0 :: (t0 ++ emitSep xs) := by
        rw [show emitItems (x :: xs) = emitVal x ++ emitSep xs from rfl, h0]
        rfl
      have hlen : (emitVal (JVal.arr (x :: xs))).length = (emitItems (x :: xs)).length + 2 := by
        show ('[' :: (emitItems (x :: xs) ++ [']'])).length = _
        simp
      rw [show emitVal (.arr (x :: xs)) ++ rest
            = '[' :: (c0 :: (t0 ++ emitSep xs ++ ']' :: rest)) by
          rw [show emitVal (.arr (x :: xs)) = '[' :: (emitItems (x :: xs) ++ [']']) from rfl,
            hitems]
          simp]
      rw [parseVal_arr_dispatch fuel c0 _ hws hbr]
      rw [show c0 :: (t0 ++ emitSep xs ++ ']' :: rest)
            = emitItems (x :: xs) ++ ']' :: rest by rw [hitems]; simp]
      rw [rt_items x xs fuel rest (by omega)]
      rfl
  | .obj [], fuel, rest, hf, _ => by
    match fuel, hf with
    | fuel + 1, _ => rfl
  | .obj ((k, v) :: fs), fuel, rest, hf, _ => by
    match fuel, hf with
    | fuel + 1, _ =>
      have hkey : emitFields ((k, v) :: fs)
          = '"' :: (k.data.flatMap escChar ++ '"' :: (':' :: ' ' :: (emitVal v ++ emitFieldSep fs))) := by
        simp [emitFields, emitStr]
      have hlen : (emitVal (JVal.obj ((k, v) :: fs))).length
          = (emitFields ((k, v) :: fs)).length + 2 := by
        show ('{' :: (emitFields ((k, v) :: fs) ++ ['}'])).length = _
        simp
      rw [show emitVal (.obj ((k, v) :: fs)) ++ rest
            = '{' :: ('"' :: ((k.data.flatMap escChar ++ '"' :: (':' :: ' ' :: (emitVal v ++ emitFieldSep fs))) ++ '}' :: rest)) by
          rw [show emitVal (.obj ((k, v) :: fs))
                = '{' :: (emitFields ((k, v) :: fs) ++ ['}']) from rfl, hkey]
          simp]
      rw [parseVal_obj_dispatch fuel '"' _ (by decide) (by decide)]
      rw [show '"' :: ((k.data.flatMap escChar ++ '"' :: (':' :: ' ' :: (emitVal v ++ emitFieldSep fs))) ++ '}' :: rest)
            = emitFields ((k, v) :: fs) ++ '}' :: rest by rw [hkey]; simp]
      rw [rt_fields (k, v) fs fuel rest (by omega)]
      rfl
  termination_by v _ _ _ _ => sizeOf v

/-- Parsing emitted array elements up to the closing bracket. -/
theorem rt_items : ∀ (x : JVal) (xs : List JVal) (fuel : Nat) (rest : List Char),
    (emitItems (x :: xs)).length + 1 < fuel →
    parseItems fuel (emitItems (x :: xs) ++ ']' :: rest) = some (x :: xs, rest)
  | x, [], fuel, rest, hf => by
    match fuel, hf with
    | fuel + 1, _ =>
      have hlen : (emitItems (x :: [])).length = (emitVal x).length := by
        simp [emitItems, emitSep]
      rw [show emitItems (x :: []) ++ ']' :: rest = emitVal x ++ ']' :: rest by
        simp [emitItems, emitSep]]
      rw [parseItems_step, rt_val x fuel (']' :: rest) (by omega) rfl]
      rfl
  | x, y :: ys, fuel, rest, hf => by
    match fuel, hf with
    | fuel + 1, _ =>
      have hlen : (emitItems (x :: y :: ys)).length
          = (emitVal x).length + 2 + (emitItems (y :: ys)).length := by
        simp [emitItems, emitSep]
        omega
      rw [show emitItems (x :: y :: ys) ++ ']' :: rest
            = emitVal x ++ (',' :: ' ' :: (emitItems (y :: ys) ++ ']' :: rest)) by
          rw [show emitItems (x :: y :: ys) = emitVal x ++ emitSep (y :: ys) from rfl,
            emitSep_cons]
          simp]
      rw [parseItems_step,
        rt_val x fuel (',' :: ' ' :: (emitItems (y :: ys) ++ ']' :: rest)) (by omega) rfl]
      show (parseItems fuel (' ' :: (emitItems (y :: ys) ++ ']' :: rest))).map
          (fun p => (x :: p.1, p.2)) = _
      rw [parseItems_skip_one fuel ' ' _ (by decide),
        rt_items y ys fuel rest (by omega)]
      rfl
  termination_by x xs _ _ _ => sizeOf x + sizeOf xs

/-- Parsing emitted object members up to the closing brace. -/
theorem rt_fields : ∀ (f : String × JVal) (fs : List (String × JVal)) (fuel : Nat)
    (rest : List Char),
    (emitFields (f :: fs)).length + 1 < fuel →
    parseFields fuel (emitFields (f :: fs) ++ '}' :: rest) = some (f :: fs, rest)
  | (k, v), fs, fuel, rest, hf => by
    match fuel, hf with
    | fuel + 1, _ =>
      have hlen : (emitFields ((k, v) :: fs)).length
          = (emitStr k).length + 2 + (emitVal v).length + (emitFieldSep fs).length := by
        simp [emitFields]
        omega
      rw [show emitFields ((k, v) :: fs) ++ '}' :: rest
            = '"' :: (k.data.flatMap escChar ++ '"' :: (':' :: ' ' :: (emitVal v ++ (emitFieldSep fs ++ '}' :: rest)))) by
          simp [emitFields, emitStr]]
      rw [parseFields_quote_step, parseStrBody_emit k.data _]
      show (match parseVal fuel (' ' :: (emitVal v ++ (emitFieldSep fs ++ '}' :: rest))) with
            | none => none
            | some (v1, r3) =>
              match skipSpace r3 with
              | ',' :: r4 => (parseFields fuel r4).map
                  (fun (p : List (String × JVal) × List Char) =>
                    ((String.mk k.data, v1) :: p.1, p.2))
              | '}' :: r4 => some ([(String.mk k.data, v1)], r4)
              | _ => none) = _
      rw [parseVal_skip_one fuel ' ' _ (by decide),
        rt_val v fuel (emitFieldSep fs ++ '}' :: rest) (by omega) (numStop_fieldSep fs rest)]
      match fs with
      | [] =>
        rfl
      | (k2, v2) :: fs2 =>
        have hlen2 : (emitFieldSep ((k2, v2) :: fs2)).length
            = 2 + (emitFields ((k2, v2) :: fs2)).length := by
          rw [emitFieldSep_cons]
          simp
          omega
        rw [show emitFieldSep ((k2, v2) :: fs2) ++ '}' :: rest
              = ',' :: ' ' :: (emitFields ((k2, v2) :: fs2) ++ '}' :: rest) by
            rw [emitFieldSep_cons]
            simp]
        show (parseFields fuel (' ' :: (emitFields ((k2, v2) :: fs2) ++ '}' :: rest))).map
            (fun p => ((String.mk k.data, v) :: p.1, p.2)) = _
        rw [parseFields_skip_one fuel ' ' _ (by decide),
          rt_fields (k2, v2) fs2 fuel rest (by omega)]
        rfl
  termination_by f fs _ _ _ => sizeOf f + sizeOf fs
end

/-- The model-level `json.loads . json.dumps` round-trip. -/
theorem loads_dumps (v : JVal) : loads (dumps v) = some v := by
  have h := rt_val v ((emitVal v).length + 1) [] (by omega) rfl
  rw [List.append_nil] at h
  show (match parseVal ((emitVal v).length + 1) (emitVal v) with
        | some (w, r) => if skipSpace r = [] then some w else none
        | none => none) = some v
  rw [h]
  rfl

/-! ## ASCII bounds on emitted JSON -/

/-- Printable ASCII is below 128. -/
theorem printableChar_lt128 (c : Char) (h : printableChar c = true) : c.toNat < 128 := by
  rw [printableChar, Bool.and_eq_true, decide_eq_true_eq, decide_eq_true_eq] at h
  omega

/-- Digit characters are ASCII. -/
theorem natToChars_lt128 (n : Nat) : ∀ c ∈ natToChars n, c.toNat < 128 := by
  intro c hc
  obtain ⟨d, hd, rfl⟩ := natToChars_chars n c hc
  rw [digitChr_toNat d hd]
  omega

/-- Integer tokens are ASCII. -/
theorem intToChars_lt128 (i : Int) : ∀ c ∈ intToChars i, c.toNat < 128 := by
  intro c hc
  rw [intToChars, List.mem_append] at hc
  rcases hc with hc | hc
  · by_cases hneg : i < 0
    · simp [hneg] at hc
      subst hc
      decide
    · simp [hneg] at hc
  · exact natToChars_lt128 i.natAbs c hc

/-- Emitted string literals over printable-ASCII contents are ASCII. -/
theorem emitStr_lt128 (s : String) (hs : s.data.all printableChar = true) :
    ∀ c ∈ emitStr s, c.toNat < 128 := by
  intro c hc
  rw [emitStr, List.mem_cons, List.mem_append] at hc
  rcases hc with rfl | hc | hc
  · decide
  · rw [List.mem_flatMap] at hc
    obtain ⟨a, ha, hca⟩ := hc
    have hpa : printableChar a = true := by
      rw [List.all_eq_true] at hs
      exact hs a ha
    rw [escChar] at hca
    split at hca
    · rw [List.mem_cons, List.mem_singleton] at hca
      rcases hca with rfl | rfl
      · decide
      · exact printableChar_lt128 _ hpa
    · rw [List.mem_singleton] at hca
      subst hca
      exact printableChar_lt128 _ hpa
  · rw [List.mem_singleton] at hc
    subst hc
    decide

mutual
/-- On ASCII-fragment values, every character `json.dumps` emits is ASCII, so
the UTF-8 model (`strBytes` / `bytesStr`) is exact on the emitted text. -/
theorem emitVal_ascii : ∀ (v : JVal), asciiVal v = true → ∀ c ∈ emitVal v, c.toNat < 128
  | .null, _, c, hc => by
    fin_cases hc <;> decide
  | .boolean true, _, c, hc => by
    fin_cases hc <;> decide
  | .boolean false, _, c, hc => by
    fin_cases hc <;> decide
  | .num i, _, c, hc => intToChars_lt128 i c hc
  | .str s, hv, c, hc => emitStr_lt128 s (by simpa [asciiVal] using hv) c hc
  | .arr xs, hv, c, hc => by
    rw [show emitVal (.arr xs) = '[' :: (emitItems xs ++ [']']) from rfl,
      List.mem_cons, List.mem_append] at hc
    rcases hc with rfl | hc | hc
    · decide
    · exact emitItems_ascii xs (by simpa [asciiVal] using hv) c hc
    · rw [List.mem_singleton] at hc
      subst hc
      decide
  | .obj fs, hv, c, hc => by
    rw [show emitVal (.obj fs) = '{' :: (emitFields fs ++ ['}']) from rfl,
      List.mem_cons, List.mem_append] at hc
    rcases hc with rfl | hc | hc
    · decide
    · exact emitFields_ascii fs (by simpa [asciiVal] using hv) c hc
    · rw [List.mem_singleton] at hc
      subst hc
      decide
  termination_by v _ _ _ => sizeOf v

/-- ASCII bound over emitted array elements. -/
theorem emitItems_ascii : ∀ (xs : List JVal), asciiItems xs = true →
    ∀ c ∈ emitItems xs, c.toNat < 128
  | [], _, c, hc => by simp [emitItems] at hc
  | x :: xs, hv, c, hc => by
    rw [show emitItems (x :: xs) = emitVal x ++ emitSep xs from rfl, List.mem_append] at hc
    rw [show asciiItems (x :: xs) = (asciiVal x && asciiItems xs) from rfl,
      Bool.and_eq_true] at hv
    rcases hc with hc | hc
    · exact emitVal_ascii x hv.1 c hc
    · exact emitSep_ascii xs hv.2 c hc
  termination_by xs _ _ _ => sizeOf xs

/-- ASCII bound over the element-separator continuation. -/
theorem emitSep_ascii : ∀ (xs : List JVal), asciiItems xs = true →
    ∀ c ∈ emitSep xs, c.toNat < 128
  | [], _, c, hc => by simp [emitSep] at hc
  | x :: xs, hv, c, hc => by
    rw [show emitSep (x :: xs) = ',' :: ' ' :: (emitVal x ++ emitSep xs) from rfl,
      List.mem_cons, List.mem_cons, List.mem_append] at hc
    rw [show asciiItems (x :: xs) = (asciiVal x && asciiItems xs) from rfl,
      Bool.and_eq_true] at hv
    rcases hc with rfl | rfl | hc | hc
    · decide
    · decide
    · exact emitVal_ascii x hv.1 c hc
    · exact emitSep_ascii xs hv.2 c hc
  termination_by xs _ _ _ => sizeOf xs

/-- ASCII bound over emitted object members. -/
theorem emitFields_ascii : ∀ (fs : List (String × JVal)), asciiFields fs = true →
    ∀ c ∈ emitFields fs, c.toNat < 128
  | [], _, c, hc => by simp [emitFields] at hc
  | (k, v) :: fs, hv, c, hc => by
    rw [show emitFields ((k, v) :: fs)
          = emitStr k ++ ':' :: ' ' :: (emitVal v ++ emitFieldSep fs) from rfl,
      List.mem_append, List.mem_cons, List.mem_cons, List.mem_append] at hc
    rw [show asciiFields ((k, v) :: fs)
          = (k.data.all printableChar && asciiVal v && asciiFields fs) from rfl,
      Bool.and_eq_true, Bool.and_eq_true] at hv
    rcases hc with hc | rfl | rfl | hc | hc
    · exact emitStr_lt128 k hv.1.1 c hc
    · decide
    · decide
    · exact emitVal_ascii v hv.1.2 c hc
    · exact emitFieldSep_ascii fs hv.2 c hc
  termination_by fs _ _ _ => sizeOf fs

/-- ASCII bound over the member-separator continuation. -/
theorem emitFieldSep_ascii : ∀ (fs : List (String × JVal)), asciiFields fs = true →
    ∀ c ∈ emitFieldSep fs, c.toNat < 128
  | [], _, c, hc => by simp [emitFieldSep] at hc
  | (k, v) :: fs, hv, c, hc => by
    rw [show emitFieldSep ((k, v) :: fs)
          = ',' :: ' ' :: (emitStr k ++ ':' :: ' ' :: (emitVal v ++ emitFieldSep fs)) from rfl,
      List.mem_cons, List.mem_cons, List.mem_append, List.mem_cons, List.mem_cons,
      List.mem_append] at hc
    rw [show asciiFields ((k, v) :: fs)
          = (k.data.all printableChar && asciiVal v && asciiFields fs) from rfl,
      Bool.and_eq_true, Bool.and_eq_true] at hv
    rcases hc with rfl | rfl | hc | rfl | rfl | hc | hc
    · decide
    · decide
    · exact emitStr_lt128 k hv.1.1 c hc
    · decide
    · decide
    · exact emitVal_ascii v hv.1.2 c hc
    · exact emitFieldSep_ascii fs hv.2 c hc
  termination_by fs _ _ _ => sizeOf fs
end

/-! ## Base64: decoding inverts encoding -/

/-- Alphabet characters stay in the alphabet. -/
theorem isB64Char_b64chr : ∀ k, k < 64 → isB64Char (b64chr k) = true := by decide

/-- Alphabet characters are never the padding character. -/
theorem b64chr_ne_pad : ∀ k, k < 64 → (b64chr k != '=') = true := by decide

/-- The sextet value of an alphabet character. -/
theorem b64val_b64chr : ∀ k, k < 64 → b64val (b64chr k) = k := by decide

/-- The decoder's filter keeps every character of an encoding. -/
theorem b64encode_filter : ∀ (bs : List Nat), (∀ b ∈ bs, b < 256) →
    (b64encodeBytes bs).filter (fun c => isB64Char c || c == '=') = b64encodeBytes bs
  | [], _ => rfl
  | [a], h => by
    have ha : a < 256 := h a (by simp)
    show List.filter _ [b64chr (a / 4), b64chr (a % 4 * 16), '=', '='] = _
    rw [List.filter_cons, List.filter_cons]
    rw [isB64Char_b64chr (a / 4) (by omega), isB64Char_b64chr (a % 4 * 16) (by omega)]
    rfl
  | [a, b], h => by
    have ha : a < 256 := h a (by simp)
    have hb : b < 256 := h b (by simp)
    show List.filter _
      [b64chr (a / 4), b64chr (a % 4 * 16 + b / 16), b64chr (b % 16 * 4), '='] = _
    rw [List.filter_cons, List.filter_cons, List.filter_cons]
    rw [isB64Char_b64chr (a / 4) (by omega), isB64Char_b64chr (a % 4 * 16 + b / 16) (by omega),
      isB64Char_b64chr (b % 16 * 4) (by omega)]
    rfl
  | a :: b :: c :: rest, h => by
    have ha : a < 256 := h a (by simp)
    have hb : b < 256 := h b (by simp)
    have hc : c < 256 := h c (by simp)
    have ih := b64encode_filter rest (fun x hx => h x (by simp [hx]))
    show List.filter _
      (b64chr (a / 4) :: b64chr (a % 4 * 16 + b / 16) :: b64chr (b % 16 * 4 + c / 64) ::
        b64chr (c % 64) :: b64encodeBytes rest) = _
    rw [List.filter_cons, List.filter_cons, List.filter_cons, List.filter_cons]
    rw [isB64Char_b64chr (a / 4) (by omega), isB64Char_b64chr (a % 4 * 16 + b / 16) (by omega),
      isB64Char_b64chr (b % 16 * 4 + c / 64) (by omega), isB64Char_b64chr (c % 64) (by omega)]
    simp only [Bool.true_or, if_true, ih]
    rfl

/-- Taking up to the first padding character recovers the data characters. -/
theorem b64encode_takeWhile : ∀ (bs : List Nat), (∀ b ∈ bs, b < 256) →
    (b64encodeBytes bs).takeWhile (fun c => c != '=') = b64dataChars bs
  | [], _ => rfl
  | [a], h => by
    have ha : a < 256 := h a (by simp)
    show List.takeWhile _ [b64chr (a / 4), b64chr (a % 4 * 16), '=', '='] = _
    rw [List.takeWhile_cons, b64chr_ne_pad (a / 4) (by omega)]
    rw [List.takeWhile_cons, b64chr_ne_pad (a % 4 * 16) (by omega)]
    rfl
  | [a, b], h => by
    have ha : a < 256 := h a (by simp)
    have hb : b < 256 := h b (by simp)
    show List.takeWhile _
      [b64chr (a / 4), b64chr (a % 4 * 16 + b / 16), b64chr (b % 16 * 4), '='] = _
    rw [List.takeWhile_cons, b64chr_ne_pad (a / 4) (by omega)]
    rw [List.takeWhile_cons, b64chr_ne_pad (a % 4 * 16 + b / 16) (by omega)]
    rw [List.takeWhile_cons, b64chr_ne_pad (b % 16 * 4) (by omega)]
    rfl
  | a :: b :: c :: rest, h => by
    have ha : a < 256 := h a (by simp)
    have hb : b < 256 := h b (by simp)
    have hc : c < 256 := h c (by simp)
    have ih := b64encode_takeWhile rest (fun x hx => h x (by simp [hx]))
    show List.takeWhile _
      (b64chr (a / 4) :: b64chr (a % 4 * 16 + b / 16) :: b64chr (b % 16 * 4 + c / 64) ::
        b64chr (c % 64) :: b64encodeBytes rest) = _
    rw [List.takeWhile_cons, b64chr_ne_pad (a / 4) (by omega)]
    rw [List.takeWhile_cons, b64chr_ne_pad (a % 4 * 16 + b / 16) (by omega)]
    rw [List.takeWhile_cons, b64chr_ne_pad (b % 16 * 4 + c / 64) (by omega)]
    rw [List.takeWhile_cons, b64chr_ne_pad (c % 64) (by omega)]
    simp only [if_true, ih]
    rfl

/-- Length of an encoding: four characters per started three-byte group. -/
theorem b64encode_length : ∀ (bs : List Nat),
    (b64encodeBytes bs).length = (bs.length + 2) / 3 * 4
  | [] => rfl
  | [_] => by
    show (4 : Nat) = (1 + 2) / 3 * 4
    rfl
  | [_, _] => by
    show (4 : Nat) = (2 + 2) / 3 * 4
    rfl
  | a :: b :: c :: rest => by
    rw [show b64encodeBytes (a :: b :: c :: rest)
          = b64chr (a / 4) :: b64chr (a % 4 * 16 + b / 16) :: b64chr (b % 16 * 4 + c / 64) ::
            b64chr (c % 64) :: b64encodeBytes rest from rfl]
    simp only [List.length_cons, b64encode_length rest]
    omega

/-- Length of the data characters: the encoding length minus its padding. -/
theorem b64dataChars_length : ∀ (bs : List Nat),
    (b64dataChars bs).length = bs.length + (bs.length + 2) / 3
  | [] => rfl
  | [_] => by
    show (2 : Nat) = 1 + (1 + 2) / 3
    rfl
  | [_, _] => by
    show (3 : Nat) = 2 + (2 + 2) / 3
    rfl
  | a :: b :: c :: rest => by
    rw [show b64dataChars (a :: b :: c :: rest)
          = b64chr (a / 4) :: b64chr (a % 4 * 16 + b / 16) :: b64chr (b % 16 * 4 + c / 64) ::
            b64chr (c % 64) :: b64dataChars rest from rfl]
    simp only [List.length_cons, b64dataChars_length rest]
    omega

/-- Decoding the data characters in groups recovers the bytes. -/
theorem b64quads_dataChars : ∀ (bs : List Nat), (∀ b ∈ bs, b < 256) →
    b64quads (b64dataChars bs) = some bs
  | [], _ => rfl
  | [a], h => by
    have ha : a < 256 := h a (by simp)
    show b64quads [b64chr (a / 4), b64chr (a % 4 * 16)] = _
    rw [show b64quads [b64chr (a / 4), b64chr (a % 4 * 16)]
          = some [b64val (b64chr (a / 4)) * 4 + b64val (b64chr (a % 4 * 16)) / 16] from rfl]
    rw [b64val_b64chr (a / 4) (by omega), b64val_b64chr (a % 4 * 16) (by omega)]
    congr 1
    congr 1
    omega
  | [a, b], h => by
    have ha : a < 256 := h a (by simp)
    have hb : b < 256 := h b (by simp)
    show b64quads [b64chr (a / 4), b64chr (a % 4 * 16 + b / 16), b64chr (b % 16 * 4)] = _
    rw [show b64quads [b64chr (a / 4), b64chr (a % 4 * 16 + b / 16), b64chr (b % 16 * 4)]
          = some [b64val (b64chr (a / 4)) * 4 + b64val (b64chr (a % 4 * 16 + b / 16)) / 16,
              b64val (b64chr (a % 4 * 16 + b / 16)) % 16 * 16 +
                b64val (b64chr (b % 16 * 4)) / 4] from rfl]
    rw [b64val_b64chr (a / 4) (by omega), b64val_b64chr (a % 4 * 16 + b / 16) (by omega),
      b64val_b64chr (b % 16 * 4) (by omega)]
    congr 1
    congr 1
    · omega
    · congr 1
      omega
  | a :: b :: c :: rest, h => by
    have ha : a < 256 := h a (by simp)
    have hb : b < 256 := h b (by simp)
    have hc : c < 256 := h c (by simp)
    have ih := b64quads_dataChars rest (fun x hx => h x (by simp [hx]))
    match rest, ih with
    | rest, ih =>
      rw [show b64dataChars (a :: b :: c :: rest)
            = b64chr (a / 4) :: b64chr (a % 4 * 16 + b / 16) :: b64chr (b % 16 * 4 + c / 64) ::
              b64chr (c % 64) :: b64dataChars rest from rfl]
      rw [show b64quads (b64chr (a / 4) :: b64chr (a % 4 * 16 + b / 16) ::
            b64chr (b % 16 * 4 + c / 64) :: b64chr (c % 64) :: b64dataChars rest)
          = (b64quads (b64dataChars rest)).map (fun bs2 =>
              (b64val (b64chr (a / 4)) * 4 + b64val (b64chr (a % 4 * 16 + b / 16)) / 16) ::
                (b64val (b64chr (a % 4 * 16 + b / 16)) % 16 * 16 +
                  b64val (b64chr (b % 16 * 4 + c / 64)) / 4) ::
                (b64val (b64chr (b % 16 * 4 + c / 64)) % 4 * 64 + b64val (b64chr (c % 64))) ::
                bs2) from rfl]
      rw [ih]
      rw [b64val_b64chr (a / 4) (by omega), b64val_b64chr (a % 4 * 16 + b / 16) (by omega),
        b64val_b64chr (b % 16 * 4 + c / 64) (by omega), b64val_b64chr (c % 64) (by omega)]
      simp only [Option.map_some']
      congr 1
      congr 1
      · omega
      · congr 1
        · omega
        · congr 1
          omega

/-- Base64 decoding inverts base64 encoding on byte lists. -/
theorem b64decode_encode (bs : List Nat) (h : ∀ b ∈ bs, b < 256) :
    b64decodeChars (b64encodeBytes bs) = some bs := by
  rw [b64decodeChars]
  simp only [b64encode_filter bs h, b64encode_takeWhile bs h]
  rw [b64dataChars_length bs, b64encode_length bs]
  rw [if_neg (by omega)]
  by_cases h3 : bs.length % 3 = 0
  · rw [if_neg (by simp; omega)]
    exact b64quads_dataChars bs h
  · rw [if_neg (by simp; omega)]
    exact b64quads_dataChars bs h

/-! ## Claims C1 and C5: the value codec -/

/-- The ASCII-fragment UTF-8 round-trip: decoding the encoded bytes of an
ASCII string gives the string back. -/
theorem bytesStr_strBytes (s : String) (h : ∀ c ∈ s.data, c.toNat < 128) :
    bytesStr (strBytes s) = some s := by
  rw [strBytes, bytesStr, if_pos]
  · rw [List.map_map]
    have hmap : s.data.map (Char.ofNat ∘ Char.toNat) = s.data := by
      conv_rhs => rw [← List.map_id s.data]
      exact List.map_congr_left (fun c _ => Char.ofNat_toNat c)
    rw [hmap, String.mk_data_eq]
  · rw [List.all_eq_true]
    intro b hb
    rw [List.mem_map] at hb
    obtain ⟨c, hc, rfl⟩ := hb
    exact decide_eq_true (h c hc)

/-- Decoding a base64-encoded ASCII payload reaches the inner `json.loads`
with exactly that payload. -/
theorem decode_value_encoded (inner : String) (h128 : ∀ c ∈ inner.data, c.toNat < 128) :
    decode_value (String.mk (b64encodeBytes (strBytes inner))) =
      (match loads inner with
       | some j => Except.ok j
       | none => Except.ok (JVal.str inner)) := by
  have hbytes : ∀ b ∈ strBytes inner, b < 256 := by
    intro b hb
    rw [strBytes, List.mem_map] at hb
    obtain ⟨c, hc, rfl⟩ := hb
    have := h128 c hc
    omega
  simp only [decode_value, show (String.mk (b64encodeBytes (strBytes inner))).data
      = b64encodeBytes (strBytes inner) from rfl,
    b64decode_encode _ hbytes, bytesStr_strBytes inner h128]

/-- C1 (amended): on the modelled (printable-ASCII, integer-numbered)
fragment, `_deserialize_value` inverts `_serialize_value` for every
JSON-representable value — except that a plain string which is itself a valid
JSON text comes back as the parsed value instead (the inner `json.loads` in
`_decode_value` fires); so the round-trip holds for every non-string value
and for exactly those strings that are not valid JSON texts. -/
theorem c1_round_trip_amended (v : JVal) (hv : asciiVal v = true)
    (hs : ∀ s, v = JVal.str s → loads s = none) :
    serialize_value (.json v) = .ok (serialize_json v) ∧
    deserialize_value (serialize_json v) = .ok v := by
  refine ⟨rfl, ?_⟩
  rw [show serialize_json v
        = dumps (JVal.obj [("_type", JVal.str "cache.CacheEntry"),
            ("value", JVal.str (encode_json v))]) from rfl]
  simp only [deserialize_value, loads_dumps]
  show decode_value (encode_json v) = Except.ok v
  cases v with
  | str s =>
    have h128 : ∀ c ∈ s.data, c.toNat < 128 := fun c hc =>
      printableChar_lt128 c ((List.all_eq_true.mp (by simpa [asciiVal] using hv)) c hc)
    rw [show encode_json (.str s) = String.mk (b64encodeBytes (strBytes s)) from rfl,
      decode_value_encoded s h128, hs s rfl]
  | null =>
    rw [show encode_json .null = String.mk (b64encodeBytes (strBytes (dumps .null))) from rfl,
      decode_value_encoded (dumps .null) (fun c hc => emitVal_ascii .null hv c hc),
      loads_dumps]
  | boolean b =>
    rw [show encode_json (.boolean b)
          = String.mk (b64encodeBytes (strBytes (dumps (.boolean b)))) from rfl,
      decode_value_encoded (dumps (.boolean b))
        (fun c hc => emitVal_ascii (.boolean b) hv c hc),
      loads_dumps]
  | num i =>
    rw [show encode_json (.num i)
          = String.mk (b64encodeBytes (strBytes (dumps (.num i)))) from rfl,
      decode_value_encoded (dumps (.num i)) (fun c hc => emitVal_ascii (.num i) hv c hc),
      loads_dumps]
  | arr xs =>
    rw [show encode_json (.arr xs)
          = String.mk (b64encodeBytes (strBytes (dumps (.arr xs)))) from rfl,
      decode_value_encoded (dumps (.arr xs)) (fun c hc => emitVal_ascii (.arr xs) hv c hc),
      loads_dumps]
  | obj fs =>
    rw [show encode_json (.obj fs)
          = String.mk (b64encodeBytes (strBytes (dumps (.obj fs)))) from rfl,
      decode_value_encoded (dumps (.obj fs)) (fun c hc => emitVal_ascii (.obj fs) hv c hc),
      loads_dumps]

/-- C1 counterexample: the plain string `"123"` — a valid JSON text — does not
round-trip: it comes back as the integer 123, because `_encode_value` stores
strings verbatim (not double-JSON-encoded) and `_decode_value` tries
`json.loads` on the decoded text first. -/
theorem c1_round_trip_counterexample :
    deserialize_value (serialize_json (JVal.str "123")) = .ok (JVal.num 123) ∧
    JVal.num 123 ≠ JVal.str "123" :=
  ⟨rfl, fun h => JVal.noConfusion h⟩

/-- C1 witness: the amended round-trip at a dict value (as in the repository's
tests) and at a plain string that is not valid JSON. -/
theorem c1_round_trip_witness :
    deserialize_value (serialize_json c1WitnessVal) = .ok c1WitnessVal ∧
    deserialize_value (serialize_json (JVal.str "hello")) = .ok (JVal.str "hello") := by
  constructor
  · exact (c1_round_trip_amended c1WitnessVal rfl
      (fun s h => JVal.noConfusion (show JVal.obj _ = JVal.str s from h))).2
  · exact (c1_round_trip_amended (JVal.str "hello") rfl
      (fun s h => by cases h; rfl)).2

/-- C5 (amended): a wire string that is not valid JSON does not surface an
error — `_deserialize_value` catches the `JSONDecodeError` and returns the raw
wire string as a plain-string value; an envelope whose `value` field fails
base64 decoding does surface the decode error.  The inner-JSON-parse fallback
remains the plain-string graceful degradation. -/
theorem c5_decode_errors_amended :
    (∀ w : String, loads w = none → deserialize_value w = .ok (JVal.str w)) ∧
    (∀ (w : String) (fs : List (String × JVal)) (enc : String),
      loads w = some (JVal.obj fs) → dict_get fs "value" = some (JVal.str enc) →
      b64decodeChars enc.data = none → deserialize_value w = .error PyErr.b64Err) := by
  constructor
  · intro w hw
    simp only [deserialize_value, hw]
  · intro w fs enc hw hget hb64
    simp only [deserialize_value, hw, hget, decode_value, hb64]

/-- C5 counterexample: the malformed wire string `"not json"` is returned as a
plain string, not surfaced as a decode error — the claim's "malformed outer
JSON raises" direction fails. -/
theorem c5_decode_errors_counterexample :
    loads "not json" = none ∧
    deserialize_value "not json" = .ok (JVal.str "not json") ∧
    ∀ e, deserialize_value "not json" ≠ .error e := by
  refine ⟨rfl, rfl, fun e h => ?_⟩
  rw [show deserialize_value "not json" = .ok (.str "not json") from rfl] at h
  exact Except.noConfusion h

/-- C5 witness: the amended theorem at a malformed wire string (plain-string
fallback) and at an envelope carrying undecodable base64 (error surfaced). -/
theorem c5_decode_errors_witness :
    deserialize_value "oops" = .ok (JVal.str "oops") ∧
    deserialize_value c5BadPaddingWire = .error PyErr.b64Err := by
  constructor
  · exact c5_decode_errors_amended.1 "oops" rfl
  · exact c5_decode_errors_amended.2 c5BadPaddingWire
      [("_type", JVal.str "cache.CacheEntry"), ("value", JVal.str "abc")] "abc" rfl rfl rfl
